import Mathlib

/-! Trade Risk Manager: the derivation engine of `trade_risk_manager_react_single_file.jsx`.

The component keeps six numeric inputs in React state and derives every output from them
on each render.  The embedding below follows the source line by line, twice:

* `TradeRisk`: JavaScript numbers in *exact arithmetic*, a value being a rational, one of the
  two infinities, or NaN.  Rounding to binary64 and the sign of zero are abstracted away; a
  division by zero yields an infinity (or NaN for `0 / 0`) exactly as in JavaScript.  This is
  the reading of the properties that are worded "in exact arithmetic", and of the handlers
  and the per-trade plan, where nothing is rounded.
* `TradeRisk.Binary64`: JavaScript numbers as the program computes them, every arithmetic
  result rounded to binary64 (round to nearest, ties to even, gradual underflow, overflow to
  an infinity, signed zero).  This is the reading of the properties about what the program
  returns: the suggested trade count, the zero denominator, and the two prices.
-/

namespace TradeRisk

/-- A JavaScript number in exact arithmetic. -/
inductive JSNum where
  | nan : JSNum
  | posInf : JSNum
  | negInf : JSNum
  | fin (q : ℚ) : JSNum
  deriving DecidableEq

namespace JSNum

/-- The JavaScript product `a * b`. -/
def mul : JSNum → JSNum → JSNum
  | fin a, fin b => fin (a * b)
  | fin a, posInf => if a = 0 then nan else if 0 < a then posInf else negInf
  | fin a, negInf => if a = 0 then nan else if 0 < a then negInf else posInf
  | posInf, fin b => if b = 0 then nan else if 0 < b then posInf else negInf
  | negInf, fin b => if b = 0 then nan else if 0 < b then negInf else posInf
  | posInf, posInf => posInf
  | posInf, negInf => negInf
  | negInf, posInf => negInf
  | negInf, negInf => posInf
  | nan, _ => nan
  | _, nan => nan

/-- The JavaScript quotient `a / b`; a zero divisor is the positive zero. -/
def div : JSNum → JSNum → JSNum
  | fin a, fin b =>
    if b = 0 then (if a = 0 then nan else if 0 < a then posInf else negInf) else fin (a / b)
  | fin _, posInf => fin 0
  | fin _, negInf => fin 0
  | posInf, fin b => if 0 ≤ b then posInf else negInf
  | negInf, fin b => if 0 ≤ b then negInf else posInf
  | posInf, posInf => nan
  | posInf, negInf => nan
  | negInf, posInf => nan
  | negInf, negInf => nan
  | nan, _ => nan
  | _, nan => nan

/-- The JavaScript sum `a + b`. -/
def add : JSNum → JSNum → JSNum
  | fin a, fin b => fin (a + b)
  | fin _, posInf => posInf
  | fin _, negInf => negInf
  | posInf, fin _ => posInf
  | negInf, fin _ => negInf
  | posInf, posInf => posInf
  | posInf, negInf => nan
  | negInf, posInf => nan
  | negInf, negInf => negInf
  | nan, _ => nan
  | _, nan => nan

/-- The JavaScript difference `a - b`. -/
def sub : JSNum → JSNum → JSNum
  | fin a, fin b => fin (a - b)
  | fin _, posInf => negInf
  | fin _, negInf => posInf
  | posInf, fin _ => posInf
  | negInf, fin _ => negInf
  | posInf, posInf => nan
  | posInf, negInf => posInf
  | negInf, posInf => negInf
  | negInf, negInf => nan
  | nan, _ => nan
  | _, nan => nan

/-- The JavaScript comparison `a > b`; any comparison with NaN is false. -/
def gt : JSNum → JSNum → Bool
  | fin a, fin b => decide (b < a)
  | fin _, negInf => true
  | posInf, fin _ => true
  | posInf, negInf => true
  | _, _ => false

/-- ToBoolean on a number: `0` and NaN are falsy. -/
def truthy : JSNum → Bool
  | fin q => decide (q ≠ 0)
  | posInf => true
  | negInf => true
  | nan => false

/-- The JavaScript `a || b`. -/
def or (a b : JSNum) : JSNum := if truthy a then a else b

/-- The JavaScript `a && b`. -/
def and (a b : JSNum) : JSNum := if truthy a then b else a

/-- The function `Math.floor`. -/
def floor : JSNum → JSNum
  | fin q => fin (⌊q⌋ : ℤ)
  | x => x

/-- The function `Math.min` on two arguments: NaN if either is NaN. -/
def min2 : JSNum → JSNum → JSNum
  | nan, _ => nan
  | _, nan => nan
  | negInf, _ => negInf
  | _, negInf => negInf
  | posInf, b => b
  | a, posInf => a
  | fin a, fin b => fin (min a b)

/-- The function `Math.max` on two arguments: NaN if either is NaN. -/
def max2 : JSNum → JSNum → JSNum
  | nan, _ => nan
  | _, nan => nan
  | posInf, _ => posInf
  | _, posInf => posInf
  | negInf, b => b
  | a, negInf => a
  | fin a, fin b => fin (max a b)

/-- The expression `+(x).toFixed(5)`: below `10^21` in magnitude `toFixed` prints the integer
`n` for which `n / 10^5` is nearest to `|x|` (the larger one on a tie) with the sign of `x`;
from `10^21` on, and for a value that is not finite, it prints the number itself.  The unary
plus reads the printed decimal back. -/
def toFixed5 : JSNum → JSNum
  | fin q =>
    if 10 ^ 21 ≤ |q| then fin q
    else if q < 0 then fin (-((⌊(-q) * 10 ^ 5 + 1 / 2⌋ : ℤ) : ℚ) / 10 ^ 5)
    else fin (((⌊q * 10 ^ 5 + 1 / 2⌋ : ℤ) : ℚ) / 10 ^ 5)
  | x => x

/-- The abstract operation ToLength: truncate, then clamp to `[0, 2^53 - 1]`. -/
def toLength : JSNum → Nat
  | nan => 0
  | negInf => 0
  | posInf => 2 ^ 53 - 1
  | fin q =>
    let t : ℤ := if 0 ≤ q then ⌊q⌋ else ⌈q⌉
    if t ≤ 0 then 0 else min t.toNat (2 ^ 53 - 1)

end JSNum

open JSNum

/-- The call `Array.from({ length: len }, (_, i) => f i)`: the length of the array-like is
`ToLength(len)`; the array is then built by `Array(n)`, which raises a RangeError (here `none`)
unless `n` is an array length, that is `n ≤ 2^32 - 1`; otherwise entry `i` is `f i` for
`i = 0, ..., n - 1`. -/
def arrayFrom {α : Type} (len : JSNum) (f : Nat → α) : Option (List α) :=
  let n := toLength len
  if n < 2 ^ 32 then some ((List.range n).map f) else none

/-- The numeric React state of the component (the `notes` string has no computational role). -/
structure Input where
  funds : JSNum
  numTrades : JSNum
  dailyRiskPct : JSNum
  riskReward : JSNum
  pipSize : JSNum
  entryPrice : JSNum

/-- The state on load: the `useState` defaults. -/
def Input.initial : Input :=
  ⟨fin 1000, fin 5, fin 2, fin 2, fin (1 / 10000), fin 0⟩

/-- One row of the per-trade plan. -/
structure TradeLine where
  trade : Nat
  riskAmount : JSNum
  slPips : JSNum
  tpPips : JSNum
  rewardAmount : JSNum
  deriving DecidableEq

/-! ## Input handlers: `v` is `Number(e.target.value)` -/

/-- Handler of the funds field: `setFunds(Number(e.target.value) || 0)`. -/
def fundsOnChange (v : JSNum) : JSNum := JSNum.or v (fin 0)

/-- Handler of the entry price field: `setEntryPrice(Number(e.target.value) || 0)`. -/
def entryPriceOnChange (v : JSNum) : JSNum := JSNum.or v (fin 0)

/-- Handler of the trade count field:
`setNumTrades(Math.max(1, Number(e.target.value) || 1))`. -/
def numTradesOnChange (v : JSNum) : JSNum := max2 (fin 1) (JSNum.or v (fin 1))

/-- Handler of the daily risk field: `setDailyRiskPct(Number(e.target.value) || 0)`. -/
def dailyRiskPctOnChange (v : JSNum) : JSNum := JSNum.or v (fin 0)

/-- Handler of the risk:reward field: `setRiskReward(Number(e.target.value) || 0.1)`. -/
def riskRewardOnChange (v : JSNum) : JSNum := JSNum.or v (fin (1 / 10))

/-- Handler of the pip size field: `setPipSize(Number(e.target.value) || 0.0001)`. -/
def pipSizeOnChange (v : JSNum) : JSNum := JSNum.or v (fin (1 / 10000))

/-! ## Derived values -/

/-- Source: `funds * (dailyRiskPct / 100)`. -/
def dailyRiskAmount (s : Input) : JSNum :=
  mul s.funds (div s.dailyRiskPct (fin 100))

/-- Source: `numTrades > 0 ? dailyRiskAmount / numTrades : 0`. -/
def perTradeRisk (s : Input) : JSNum :=
  if gt s.numTrades (fin 0) then div (dailyRiskAmount s) s.numTrades else fin 0

/-- Source: `perTradeRisk > 0 ? perTradeRisk / (pipSize * funds) : 0`, in exact arithmetic;
`Binary64.slPips` is the same expression as the program rounds it. -/
def slPips (s : Input) : JSNum :=
  if gt (perTradeRisk s) (fin 0) then div (perTradeRisk s) (mul s.pipSize s.funds) else fin 0

/-- Source: `slPips * riskReward`. -/
def tpPips (s : Input) : JSNum :=
  mul (slPips s) s.riskReward

/-- Source: `entryPrice && slPips ? +(entryPrice - slPips * pipSize).toFixed(5) : 0`, in exact
arithmetic; `Binary64.slPrice` is the same expression as the program rounds it. -/
def slPrice (s : Input) : JSNum :=
  if truthy (JSNum.and s.entryPrice (slPips s)) then
    toFixed5 (sub s.entryPrice (mul (slPips s) s.pipSize))
  else fin 0

/-- Source: `entryPrice && tpPips ? +(entryPrice + tpPips * pipSize).toFixed(5) : 0`, in exact
arithmetic; `Binary64.tpPrice` is the same expression as the program rounds it. -/
def tpPrice (s : Input) : JSNum :=
  if truthy (JSNum.and s.entryPrice (tpPips s)) then
    toFixed5 (add s.entryPrice (mul (tpPips s) s.pipSize))
  else fin 0

/-- Source: `const lossIfLoseAll = dailyRiskAmount`. -/
def lossIfLoseAll (s : Input) : JSNum := dailyRiskAmount s

/-- Source: `funds - dailyRiskAmount`. -/
def balanceIfLoseAll (s : Input) : JSNum := sub s.funds (dailyRiskAmount s)

/-- Source: `perTradeRisk * riskReward`. -/
def gainPerTrade (s : Input) : JSNum := mul (perTradeRisk s) s.riskReward

/-- Source: `gainPerTrade * numTrades`. -/
def totalGainIfWinAll (s : Input) : JSNum := mul (gainPerTrade s) s.numTrades

/-- Source: `funds + totalGainIfWinAll`. -/
def balanceIfWinAll (s : Input) : JSNum := add s.funds (totalGainIfWinAll s)

/-- Source: `Array.from({ length: numTrades }, (_, i) => ({ trade: i + 1, ... }))`. -/
def tradeLines (s : Input) : Option (List TradeLine) :=
  arrayFrom s.numTrades fun i =>
    { trade := i + 1
      riskAmount := perTradeRisk s
      slPips := slPips s
      tpPips := tpPips s
      rewardAmount := gainPerTrade s }

/-- The sum of the `riskAmount` column of a plan, added up row by row from `0`. -/
def sumRiskAmount (rows : List TradeLine) : JSNum :=
  (rows.map TradeLine.riskAmount).foldl add (fin 0)

/-- The per-trade risk of a state whose numbers are finite, as a rational:
`numTrades > 0 ? funds * (dailyRiskPct / 100) / numTrades : 0`. -/
def perTradeRiskQ (funds numTrades dailyRiskPct : ℚ) : ℚ :=
  if 0 < numTrades then funds * (dailyRiskPct / 100) / numTrades else 0

/-- A state all of whose six numbers are finite. -/
def finInput (funds numTrades dailyRiskPct riskReward pipSize entryPrice : ℚ) : Input :=
  ⟨fin funds, fin numTrades, fin dailyRiskPct, fin riskReward, fin pipSize, fin entryPrice⟩

end TradeRisk

/-! # The same program in binary64 arithmetic -/

namespace TradeRisk

namespace Binary64

/-- A binary64 value: NaN, an infinity, the negative zero, or a rational number; `fin 0` is the
positive zero.  The arithmetic below only ever produces `fin q` for a `q` that binary64
represents. -/
inductive F64 where
  | nan : F64
  | posInf : F64
  | negInf : F64
  | negZero : F64
  | fin (q : ℚ) : F64
  deriving DecidableEq

/-- Round a rational to the nearest integer, a tie to the even one. -/
def roundEven (t : ℚ) : ℤ :=
  if t - ⌊t⌋ < 1 / 2 then ⌊t⌋
  else if 1 / 2 < t - ⌊t⌋ then ⌊t⌋ + 1
  else if ⌊t⌋ % 2 = 0 then ⌊t⌋ else ⌊t⌋ + 1

/-- The spacing of the binary64 grid around `x`: `2 ^ (e - 52)` where `e` is the binary
exponent of `x`, held at `-1022` in the subnormal range. -/
def quantum (x : ℚ) : ℚ := (2 : ℚ) ^ (max (Int.log 2 |x|) (-1022) - 52)

/-- The grid point nearest to `x` (ties to even), the exponent unbounded above. -/
def nearest (x : ℚ) : ℚ := (roundEven (x / quantum x) : ℚ) * quantum x

namespace F64

/-- Rounding of an exact result to binary64 (round to nearest, ties to even): overflow gives
an infinity, and a zero result takes the sign of `x`, or `negZ` when `x` itself is `0`. -/
def rnd (negZ : Bool) (x : ℚ) : F64 :=
  if 2 ^ 1024 ≤ nearest x then posInf
  else if nearest x ≤ -2 ^ 1024 then negInf
  else if nearest x = 0 then (if x < 0 ∨ (x = 0 ∧ negZ = true) then negZero else fin 0)
  else fin (nearest x)

/-- The sign bit. -/
def isNeg : F64 → Bool
  | negInf => true
  | negZero => true
  | fin q => decide (q < 0)
  | _ => false

def isNaN : F64 → Bool
  | nan => true
  | _ => false

def isInf : F64 → Bool
  | posInf => true
  | negInf => true
  | _ => false

def isZero : F64 → Bool
  | negZero => true
  | fin q => decide (q = 0)
  | _ => false

/-- The real value of a finite number (`0` for the others). -/
def rat : F64 → ℚ
  | fin q => q
  | _ => 0

/-- The infinity of a given sign. -/
def inf (neg : Bool) : F64 := if neg then negInf else posInf

/-- The zero of a given sign. -/
def zero (neg : Bool) : F64 := if neg then negZero else fin 0

/-- The JavaScript product `a * b`. -/
def mul (a b : F64) : F64 :=
  if isNaN a || isNaN b then nan
  else if isInf a || isInf b then
    (if isZero a || isZero b then nan else inf (xor (isNeg a) (isNeg b)))
  else rnd (xor (isNeg a) (isNeg b)) (rat a * rat b)

/-- The JavaScript quotient `a / b`. -/
def div (a b : F64) : F64 :=
  if isNaN a || isNaN b then nan
  else if isInf a then (if isInf b then nan else inf (xor (isNeg a) (isNeg b)))
  else if isInf b then zero (xor (isNeg a) (isNeg b))
  else if isZero b then (if isZero a then nan else inf (xor (isNeg a) (isNeg b)))
  else rnd (xor (isNeg a) (isNeg b)) (rat a / rat b)

/-- The JavaScript sum `a + b`. -/
def add (a b : F64) : F64 :=
  if isNaN a || isNaN b then nan
  else if isInf a then (if isInf b && xor (isNeg a) (isNeg b) then nan else a)
  else if isInf b then b
  else rnd (isNeg a && isNeg b) (rat a + rat b)

/-- The JavaScript difference `a - b`. -/
def sub (a b : F64) : F64 :=
  if isNaN a || isNaN b then nan
  else if isInf a then (if isInf b && !(xor (isNeg a) (isNeg b)) then nan else a)
  else if isInf b then inf (!(isNeg b))
  else rnd (isNeg a && !(isNeg b)) (rat a - rat b)

/-- The JavaScript comparison `a > b`; any comparison with NaN is false. -/
def gt (a b : F64) : Bool :=
  if isNaN a || isNaN b then false
  else if isInf a then (!(isNeg a)) && !(a == b)
  else if isInf b then isNeg b
  else decide (rat b < rat a)

/-- ToBoolean on a number: both zeros and NaN are falsy. -/
def truthy (a : F64) : Bool := !(isNaN a) && !(isZero a)

/-- The JavaScript `a || b`. -/
def or (a b : F64) : F64 := if truthy a then a else b

/-- The JavaScript `a && b`. -/
def and (a b : F64) : F64 := if truthy a then b else a

/-- The function `Math.floor`; the floor of a binary64 number is one, so nothing is rounded. -/
def floor : F64 → F64
  | fin q => fin (⌊q⌋ : ℤ)
  | x => x

/-- The function `Math.min` on two arguments: NaN if either is NaN, and `-0` below `+0`. -/
def min2 (a b : F64) : F64 :=
  if isNaN a || isNaN b then nan
  else if gt a b then b
  else if gt b a then a
  else if isNeg a then a else b

/-- The function `Math.max` on two arguments: NaN if either is NaN, and `+0` above `-0`. -/
def max2 (a b : F64) : F64 :=
  if isNaN a || isNaN b then nan
  else if gt a b then a
  else if gt b a then b
  else if isNeg a then b else a

/-- The expression `+(x).toFixed(5)`.  Below `10^21` in magnitude `toFixed` prints the integer
`n` for which `n / 10^5` is nearest to the exact value of `|x|` (the larger one on a tie),
with a minus sign when `x < 0`; from `10^21` on, and for a value that is not finite, it prints
the number itself.  The unary plus reads the printed decimal back, rounding it to binary64. -/
def toFixed5 : F64 → F64
  | fin q =>
    if 10 ^ 21 ≤ |q| then fin q
    else if q < 0 then rnd true (-((⌊(-q) * 10 ^ 5 + 1 / 2⌋ : ℤ) : ℚ) / 10 ^ 5)
    else rnd false (((⌊q * 10 ^ 5 + 1 / 2⌋ : ℤ) : ℚ) / 10 ^ 5)
  | negZero => fin 0
  | x => x

/-- A zero or NaN: the values that both `x > 0` and the condition `x ? a : b` reject. -/
def zeroOrNaN (a : F64) : Bool := isZero a || isNaN a

/-- The number a decimal numeral denotes: `Number("...")` on a numeral of value `x` (other
than the numeral `-0`, whose value is `0` and whose number is the negative zero). -/
def ofDecimal (x : ℚ) : F64 := rnd false x

end F64

open F64

/-- The numeric React state of the component, in binary64. -/
structure Input where
  funds : F64
  numTrades : F64
  dailyRiskPct : F64
  riskReward : F64
  pipSize : F64
  entryPrice : F64

/-- Handler of the funds field: `setFunds(Number(e.target.value) || 0)`. -/
def fundsOnChange (v : F64) : F64 := F64.or v (fin 0)

/-- Handler of the entry price field: `setEntryPrice(Number(e.target.value) || 0)`. -/
def entryPriceOnChange (v : F64) : F64 := F64.or v (fin 0)

/-- Handler of the trade count field:
`setNumTrades(Math.max(1, Number(e.target.value) || 1))`. -/
def numTradesOnChange (v : F64) : F64 := max2 (fin 1) (F64.or v (fin 1))

/-- Handler of the daily risk field: `setDailyRiskPct(Number(e.target.value) || 0)`. -/
def dailyRiskPctOnChange (v : F64) : F64 := F64.or v (fin 0)

/-- Handler of the risk:reward field: `setRiskReward(Number(e.target.value) || 0.1)`. -/
def riskRewardOnChange (v : F64) : F64 := F64.or v (ofDecimal (1 / 10))

/-- Handler of the pip size field: `setPipSize(Number(e.target.value) || 0.0001)`. -/
def pipSizeOnChange (v : F64) : F64 := F64.or v (ofDecimal (1 / 10000))

/-- Source: `Math.min(Math.floor(100 / dailyRiskPct), 10)`. -/
def suggestedMaxTrades (s : Input) : F64 :=
  min2 (floor (div (fin 100) s.dailyRiskPct)) (fin 10)

/-- Source: `funds * (dailyRiskPct / 100)`. -/
def dailyRiskAmount (s : Input) : F64 :=
  mul s.funds (div s.dailyRiskPct (fin 100))

/-- Source: `numTrades > 0 ? dailyRiskAmount / numTrades : 0`. -/
def perTradeRisk (s : Input) : F64 :=
  if gt s.numTrades (fin 0) then div (dailyRiskAmount s) s.numTrades else fin 0

/-- Source: `perTradeRisk > 0 ? perTradeRisk / (pipSize * funds) : 0`. -/
def slPips (s : Input) : F64 :=
  if gt (perTradeRisk s) (fin 0) then div (perTradeRisk s) (mul s.pipSize s.funds) else fin 0

/-- Source: `slPips * riskReward`. -/
def tpPips (s : Input) : F64 :=
  mul (slPips s) s.riskReward

/-- Source: `entryPrice && slPips ? +(entryPrice - slPips * pipSize).toFixed(5) : 0`. -/
def slPrice (s : Input) : F64 :=
  if truthy (F64.and s.entryPrice (slPips s)) then
    toFixed5 (sub s.entryPrice (mul (slPips s) s.pipSize))
  else fin 0

/-- Source: `entryPrice && tpPips ? +(entryPrice + tpPips * pipSize).toFixed(5) : 0`. -/
def tpPrice (s : Input) : F64 :=
  if truthy (F64.and s.entryPrice (tpPips s)) then
    toFixed5 (add s.entryPrice (mul (tpPips s) s.pipSize))
  else fin 0

/-- The state after six decimal numerals of the given values are typed into the form: each
field holds what its handler stores for `Number(e.target.value)`. -/
def typed (funds numTrades dailyRiskPct riskReward pipSize entryPrice : ℚ) : Input :=
  ⟨fundsOnChange (ofDecimal funds), numTradesOnChange (ofDecimal numTrades),
    dailyRiskPctOnChange (ofDecimal dailyRiskPct), riskRewardOnChange (ofDecimal riskReward),
    pipSizeOnChange (ofDecimal pipSize), entryPriceOnChange (ofDecimal entryPrice)⟩

end Binary64

end TradeRisk

/-! # Theorems in exact arithmetic -/

namespace TradeRisk

open JSNum

/-! ## Evaluation lemmas on finite numbers -/

@[simp]
theorem mul_fin (a b : ℚ) : mul (fin a) (fin b) = fin (a * b) := rfl

@[simp]
theorem add_fin (a b : ℚ) : add (fin a) (fin b) = fin (a + b) := rfl

@[simp]
theorem sub_fin (a b : ℚ) : sub (fin a) (fin b) = fin (a - b) := rfl

@[simp]
theorem gt_fin (a b : ℚ) : gt (fin a) (fin b) = decide (b < a) := rfl

@[simp]
theorem truthy_fin (a : ℚ) : truthy (fin a) = decide (a ≠ 0) := rfl

theorem div_fin_of_ne (a : ℚ) {b : ℚ} (hb : b ≠ 0) : div (fin a) (fin b) = fin (a / b) := by
  simp [div, hb]

theorem dailyRiskAmount_fin (f n p r z e : ℚ) :
    dailyRiskAmount (finInput f n p r z e) = fin (f * (p / 100)) := by
  simp [dailyRiskAmount, finInput, div_fin_of_ne]

theorem perTradeRisk_fin (f n p r z e : ℚ) :
    perTradeRisk (finInput f n p r z e) = fin (perTradeRiskQ f n p) := by
  unfold perTradeRisk perTradeRiskQ
  rw [dailyRiskAmount_fin]
  by_cases hn : 0 < n
  · simp [finInput, hn, div_fin_of_ne _ hn.ne']
  · simp [finInput, hn]

theorem slPips_fin (f n p r z e : ℚ) :
    slPips (finInput f n p r z e) =
      if 0 < perTradeRiskQ f n p then div (fin (perTradeRiskQ f n p)) (fin (z * f))
      else fin 0 := by
  unfold slPips
  rw [perTradeRisk_fin]
  simp [finInput]

theorem gainPerTrade_fin (f n p r z e : ℚ) :
    gainPerTrade (finInput f n p r z e) = fin (perTradeRiskQ f n p * r) := by
  unfold gainPerTrade
  rw [perTradeRisk_fin]
  simp [finInput]

theorem totalGainIfWinAll_fin (f n p r z e : ℚ) :
    totalGainIfWinAll (finInput f n p r z e) = fin (perTradeRiskQ f n p * r * n) := by
  unfold totalGainIfWinAll
  rw [gainPerTrade_fin]
  simp [finInput]

theorem tpPips_fin_of_slPips {f n p r z e q : ℚ} (h : slPips (finInput f n p r z e) = fin q) :
    tpPips (finInput f n p r z e) = fin (q * r) := by
  unfold tpPips
  rw [h]
  simp [finInput]

@[simp]
theorem finInput_funds (f n p r z e : ℚ) : (finInput f n p r z e).funds = fin f := rfl

@[simp]
theorem finInput_numTrades (f n p r z e : ℚ) :
    (finInput f n p r z e).numTrades = fin n := rfl

@[simp]
theorem finInput_riskReward (f n p r z e : ℚ) :
    (finInput f n p r z e).riskReward = fin r := rfl

@[simp]
theorem finInput_pipSize (f n p r z e : ℚ) :
    (finInput f n p r z e).pipSize = fin z := rfl

@[simp]
theorem finInput_entryPrice (f n p r z e : ℚ) :
    (finInput f n p r z e).entryPrice = fin e := rfl

theorem slPips_valid (f n p r z e : ℚ) (hf : 0 < f) (hn : 0 < n) (hp : 0 ≤ p) (hz : 0 < z) :
    slPips (finInput f n p r z e) = fin (f * p / 100 / n / (z * f)) := by
  have hq : perTradeRiskQ f n p = f * p / 100 / n := by
    unfold perTradeRiskQ
    rw [if_pos hn]
    ring
  rw [slPips_fin, hq]
  have hd : z * f ≠ 0 := (mul_pos hz hf).ne'
  rcases hp.eq_or_lt with h0 | h0
  · simp [← h0]
  · have : 0 < f * p / 100 / n := by positivity
    rw [if_pos this, div_fin_of_ne _ hd]

theorem toLength_natCast (n : ℕ) : toLength (fin (n : ℚ)) = min n (2 ^ 53 - 1) := by
  unfold toLength
  have h0 : (0 : ℚ) ≤ (n : ℚ) := Nat.cast_nonneg n
  simp only [h0, if_true, Int.floor_natCast, Int.toNat_ofNat]
  by_cases hn : n = 0
  · simp [hn]
  · have : ¬ ((n : ℤ) ≤ 0) := by omega
    rw [if_neg this]

theorem arrayFrom_natCast {α : Type} (n : ℕ) (hn : n < 2 ^ 32) (f : ℕ → α) :
    arrayFrom (fin (n : ℚ)) f = some ((List.range n).map f) := by
  unfold arrayFrom
  have h : min n (2 ^ 53 - 1) = n := by
    apply min_eq_left
    have : (2 : ℕ) ^ 32 ≤ 2 ^ 53 - 1 := by norm_num
    omega
  simp only [toLength_natCast, h, hn, if_true]

theorem arrayFrom_natCast_large {α : Type} (n : ℕ) (hn : 2 ^ 32 ≤ n) (f : ℕ → α) :
    arrayFrom (fin (n : ℚ)) f = none := by
  unfold arrayFrom
  have h : ¬ (min n (2 ^ 53 - 1) < 2 ^ 32) := by
    rw [not_lt]
    exact le_min hn (by norm_num)
  simp only [toLength_natCast, h, if_false]

theorem foldl_add_replicate (m : ℕ) (a b : ℚ) :
    List.foldl add (fin a) (List.replicate m (fin b)) = fin (a + m * b) := by
  induction m generalizing a with
  | zero => simp
  | succ k ih =>
    rw [List.replicate_succ, List.foldl_cons, add_fin, ih]
    congr 1
    push_cast
    ring

theorem sumRiskAmount_rows (s : Input) (n : ℕ) (b : ℚ) (hb : perTradeRisk s = fin b)
    (f : ℕ → ℕ) :
    sumRiskAmount ((List.range n).map fun i =>
      ({ trade := f i, riskAmount := perTradeRisk s, slPips := slPips s, tpPips := tpPips s,
         rewardAmount := gainPerTrade s } : TradeLine)) = fin (n * b) := by
  unfold sumRiskAmount
  rw [List.map_map]
  have : (TradeLine.riskAmount ∘ fun i =>
      ({ trade := f i, riskAmount := perTradeRisk s, slPips := slPips s, tpPips := tpPips s,
         rewardAmount := gainPerTrade s } : TradeLine)) = fun _ => fin b := by
    funext i
    simp [hb]
  rw [this, List.map_const', List.length_range, foldl_add_replicate, zero_add]

/-! ## The derived values on a valid state -/

/-- C5: with `funds > 0`, `numTrades ≥ 1`, `dailyRiskPct ≥ 0` and `pipSize > 0`, in exact
arithmetic `dailyRiskAmount = funds * dailyRiskPct / 100`,
`perTradeRisk = dailyRiskAmount / numTrades`, `slPips = perTradeRisk / (pipSize * funds)` and
`tpPips = slPips * riskReward`. -/
theorem derived_values_exact (funds numTrades dailyRiskPct riskReward pipSize entryPrice : ℚ)
    (hf : 0 < funds) (hn : 1 ≤ numTrades) (hp : 0 ≤ dailyRiskPct) (hz : 0 < pipSize) :
    dailyRiskAmount (finInput funds numTrades dailyRiskPct riskReward pipSize entryPrice)
      = fin (funds * dailyRiskPct / 100) ∧
    perTradeRisk (finInput funds numTrades dailyRiskPct riskReward pipSize entryPrice)
      = fin (funds * dailyRiskPct / 100 / numTrades) ∧
    slPips (finInput funds numTrades dailyRiskPct riskReward pipSize entryPrice)
      = fin (funds * dailyRiskPct / 100 / numTrades / (pipSize * funds)) ∧
    tpPips (finInput funds numTrades dailyRiskPct riskReward pipSize entryPrice)
      = fin (funds * dailyRiskPct / 100 / numTrades / (pipSize * funds) * riskReward) := by
  have hn0 : 0 < numTrades := lt_of_lt_of_le one_pos hn
  have hq : perTradeRiskQ funds numTrades dailyRiskPct
      = funds * dailyRiskPct / 100 / numTrades := by
    unfold perTradeRiskQ
    rw [if_pos hn0]
    ring
  have hsl := slPips_valid funds numTrades dailyRiskPct riskReward pipSize entryPrice hf hn0 hp hz
  refine ⟨?_, ?_, hsl, tpPips_fin_of_slPips hsl⟩
  · rw [dailyRiskAmount_fin, mul_div_assoc]
  · rw [perTradeRisk_fin, hq]

/-- The statement of C5 at `funds = 1000`, `numTrades = 5`, `dailyRiskPct = 2`,
`riskReward = 2`, `pipSize = 0.0001`: the four values are 20, 4, 40 and 80. -/
theorem derived_values_exact_witness :
    dailyRiskAmount (finInput 1000 5 2 2 (1 / 10000) 0) = fin 20 ∧
    perTradeRisk (finInput 1000 5 2 2 (1 / 10000) 0) = fin 4 ∧
    slPips (finInput 1000 5 2 2 (1 / 10000) 0) = fin 40 ∧
    tpPips (finInput 1000 5 2 2 (1 / 10000) 0) = fin 80 := by
  have h := derived_values_exact 1000 5 2 2 (1 / 10000) 0 (by norm_num) (by norm_num)
    (by norm_num) (by norm_num)
  norm_num at h
  exact h

/-! ## An empty account -/

/-- C8: with `funds = 0` and the other inputs finite, every monetary derived value is `0`
(`dailyRiskAmount`, `perTradeRisk`, `lossIfLoseAll`, `balanceIfLoseAll`, `gainPerTrade`,
`totalGainIfWinAll`, `balanceIfWinAll`) and `slPips` is `0`, neither `Infinity` nor NaN. -/
theorem funds_zero_all_zero (numTrades dailyRiskPct riskReward pipSize entryPrice : ℚ) :
    dailyRiskAmount (finInput 0 numTrades dailyRiskPct riskReward pipSize entryPrice) = fin 0 ∧
    perTradeRisk (finInput 0 numTrades dailyRiskPct riskReward pipSize entryPrice) = fin 0 ∧
    lossIfLoseAll (finInput 0 numTrades dailyRiskPct riskReward pipSize entryPrice) = fin 0 ∧
    balanceIfLoseAll (finInput 0 numTrades dailyRiskPct riskReward pipSize entryPrice) = fin 0 ∧
    gainPerTrade (finInput 0 numTrades dailyRiskPct riskReward pipSize entryPrice) = fin 0 ∧
    totalGainIfWinAll (finInput 0 numTrades dailyRiskPct riskReward pipSize entryPrice) = fin 0 ∧
    balanceIfWinAll (finInput 0 numTrades dailyRiskPct riskReward pipSize entryPrice) = fin 0 ∧
    slPips (finInput 0 numTrades dailyRiskPct riskReward pipSize entryPrice) = fin 0 := by
  have hq : perTradeRiskQ 0 numTrades dailyRiskPct = 0 := by
    unfold perTradeRiskQ
    simp
  have hd := dailyRiskAmount_fin 0 numTrades dailyRiskPct riskReward pipSize entryPrice
  have ht := totalGainIfWinAll_fin 0 numTrades dailyRiskPct riskReward pipSize entryPrice
  rw [hq] at ht
  simp only [zero_mul] at hd ht
  refine ⟨hd, ?_, ?_, ?_, ?_, ht, ?_, ?_⟩
  · rw [perTradeRisk_fin, hq]
  · exact hd
  · unfold balanceIfLoseAll
    rw [hd]
    simp [finInput]
  · rw [gainPerTrade_fin, hq, zero_mul]
  · unfold balanceIfWinAll
    rw [ht]
    simp [finInput]
  · rw [slPips_fin, hq]
    simp

/-! ## Best and worst case of the day -/

/-- C9: for every finite input, `balanceIfLoseAll + dailyRiskAmount = funds`,
`lossIfLoseAll = dailyRiskAmount`, and
`balanceIfWinAll - funds = totalGainIfWinAll = gainPerTrade * numTrades`. -/
theorem balance_identities (funds numTrades dailyRiskPct riskReward pipSize entryPrice : ℚ) :
    add (balanceIfLoseAll (finInput funds numTrades dailyRiskPct riskReward pipSize entryPrice))
        (dailyRiskAmount (finInput funds numTrades dailyRiskPct riskReward pipSize entryPrice))
      = fin funds ∧
    lossIfLoseAll (finInput funds numTrades dailyRiskPct riskReward pipSize entryPrice)
      = dailyRiskAmount (finInput funds numTrades dailyRiskPct riskReward pipSize entryPrice) ∧
    sub (balanceIfWinAll (finInput funds numTrades dailyRiskPct riskReward pipSize entryPrice))
        (fin funds)
      = totalGainIfWinAll (finInput funds numTrades dailyRiskPct riskReward pipSize entryPrice) ∧
    totalGainIfWinAll (finInput funds numTrades dailyRiskPct riskReward pipSize entryPrice)
      = mul (gainPerTrade (finInput funds numTrades dailyRiskPct riskReward pipSize entryPrice))
          (fin numTrades) := by
  refine ⟨?_, rfl, ?_, ?_⟩
  · unfold balanceIfLoseAll
    rw [dailyRiskAmount_fin]
    simp [finInput]
  · unfold balanceIfWinAll
    rw [totalGainIfWinAll_fin]
    simp [finInput]
  · rw [totalGainIfWinAll_fin, gainPerTrade_fin]
    simp

/-! ## The per-trade plan -/

/-- C6, as stated, fails: `numTrades = 4294967296 = 2^32` is an integer `≥ 1`, and there
`Array.from` raises a RangeError, so `tradeLines` is no sequence of `numTrades` rows. -/
theorem range_error_no_rows :
    tradeLines (finInput 1000 4294967296 2 2 (1 / 10000) 0) = none := by
  have h := @arrayFrom_natCast_large TradeLine 4294967296 (by norm_num)
  unfold tradeLines
  simp only [finInput_numTrades]
  norm_num at h
  rw [h]

/-- C6, amended: for every integer `numTrades` below `2^32` and every value of the other
inputs, `tradeLines` is a sequence of exactly `numTrades` rows whose trade indices are
`1, 2, ..., numTrades` in that order, and every row carries
`(perTradeRisk, slPips, tpPips, gainPerTrade)`; from `2^32` on, `Array.from` raises a
RangeError and there are no rows. -/
theorem tradeLines_rows (s : Input) (n : ℕ) (hs : s.numTrades = fin (n : ℚ)) :
    (n < 2 ^ 32 →
      ∃ rows : List TradeLine, tradeLines s = some rows ∧ rows.length = n ∧
        rows.map TradeLine.trade = List.range' 1 n ∧
        ∀ r ∈ rows, r.riskAmount = perTradeRisk s ∧ r.slPips = slPips s ∧
          r.tpPips = tpPips s ∧ r.rewardAmount = gainPerTrade s) ∧
    (2 ^ 32 ≤ n → tradeLines s = none) := by
  constructor
  · intro hn
    refine ⟨_, by unfold tradeLines; rw [hs, arrayFrom_natCast n hn], ?_, ?_, ?_⟩
    · simp
    · rw [List.map_map, List.range'_eq_map_range]
      apply List.map_congr_left
      intro i _
      simp [Nat.add_comm]
    · intro r hr
      rw [List.mem_map] at hr
      obtain ⟨i, _, rfl⟩ := hr
      exact ⟨rfl, rfl, rfl, rfl⟩
  · intro hn
    unfold tradeLines
    rw [hs, arrayFrom_natCast_large n hn]

/-- The statement of C6 at the state on load: five rows, numbered 1 to 5. -/
theorem tradeLines_rows_witness :
    ∃ rows : List TradeLine, tradeLines Input.initial = some rows ∧ rows.length = 5 ∧
      rows.map TradeLine.trade = [1, 2, 3, 4, 5] ∧
      ∀ r ∈ rows, r.riskAmount = perTradeRisk Input.initial ∧
        r.slPips = slPips Input.initial ∧ r.tpPips = tpPips Input.initial ∧
        r.rewardAmount = gainPerTrade Input.initial :=
  (tradeLines_rows Input.initial 5 (by simp [Input.initial])).1 (by norm_num)

/-- C7, as stated, fails: at the integer `numTrades = 5000000000` (with `funds = 1000`,
`dailyRiskPct = 2`) `Array.from` raises a RangeError, so there are no rows whose `riskAmount`
could add up to `dailyRiskAmount = 20`. -/
theorem range_error_no_sum :
    (tradeLines (finInput 1000 5000000000 2 2 (1 / 10000) 0)).map sumRiskAmount = none ∧
    dailyRiskAmount (finInput 1000 5000000000 2 2 (1 / 10000) 0) = fin 20 := by
  have h := @arrayFrom_natCast_large TradeLine 5000000000 (by norm_num)
  constructor
  · unfold tradeLines
    simp only [finInput_numTrades]
    norm_num at h
    rw [h]
    rfl
  · rw [dailyRiskAmount_fin]
    norm_num

/-- C7, amended: for every integer `numTrades` with `1 ≤ numTrades < 2^32` and finite other
inputs, the `riskAmount` of the rows of `tradeLines` add up to `dailyRiskAmount`; for
`numTrades = 1` there is exactly one row, numbered 1, whose `riskAmount` is `dailyRiskAmount`
and whose `rewardAmount` is `totalGainIfWinAll`. -/
theorem tradeLines_sum (n : ℕ) (funds dailyRiskPct riskReward pipSize entryPrice : ℚ)
    (h1 : 1 ≤ n) (hn : n < 2 ^ 32) :
    (∃ rows : List TradeLine,
      tradeLines (finInput funds n dailyRiskPct riskReward pipSize entryPrice) = some rows ∧
      sumRiskAmount rows =
        dailyRiskAmount (finInput funds n dailyRiskPct riskReward pipSize entryPrice)) ∧
    (n = 1 → ∃ r : TradeLine,
      tradeLines (finInput funds n dailyRiskPct riskReward pipSize entryPrice) = some [r] ∧
      r.trade = 1 ∧
      r.riskAmount =
        dailyRiskAmount (finInput funds n dailyRiskPct riskReward pipSize entryPrice) ∧
      r.rewardAmount =
        totalGainIfWinAll (finInput funds n dailyRiskPct riskReward pipSize entryPrice)) := by
  have hn0 : (0 : ℚ) < n := by exact_mod_cast h1
  have hq : perTradeRiskQ funds n dailyRiskPct = funds * (dailyRiskPct / 100) / n := by
    unfold perTradeRiskQ
    rw [if_pos hn0]
  have hrows : tradeLines (finInput funds n dailyRiskPct riskReward pipSize entryPrice) =
      some ((List.range n).map fun i =>
        ({ trade := i + 1
           riskAmount := perTradeRisk (finInput funds n dailyRiskPct riskReward pipSize entryPrice)
           slPips := slPips (finInput funds n dailyRiskPct riskReward pipSize entryPrice)
           tpPips := tpPips (finInput funds n dailyRiskPct riskReward pipSize entryPrice)
           rewardAmount :=
             gainPerTrade (finInput funds n dailyRiskPct riskReward pipSize entryPrice) } :
          TradeLine)) := by
    unfold tradeLines
    rw [finInput_numTrades, arrayFrom_natCast n hn]
  constructor
  · refine ⟨_, hrows, ?_⟩
    rw [sumRiskAmount_rows _ n _ (perTradeRisk_fin _ _ _ _ _ _), dailyRiskAmount_fin, hq]
    congr 1
    field_simp
    ring
  · intro hone
    subst hone
    refine ⟨_, hrows, rfl, ?_, ?_⟩
    · show perTradeRisk (finInput funds (1 : ℕ) dailyRiskPct riskReward pipSize entryPrice) = _
      rw [perTradeRisk_fin, dailyRiskAmount_fin, hq]
      simp
    · show gainPerTrade (finInput funds (1 : ℕ) dailyRiskPct riskReward pipSize entryPrice) = _
      rw [gainPerTrade_fin, totalGainIfWinAll_fin]
      simp

/-- The statement of C7 at `numTrades = 5` on the default state. -/
theorem tradeLines_sum_witness :
    (∃ rows : List TradeLine,
      tradeLines (finInput 1000 (5 : ℕ) 2 2 (1 / 10000) 0) = some rows ∧
      sumRiskAmount rows = dailyRiskAmount (finInput 1000 (5 : ℕ) 2 2 (1 / 10000) 0)) :=
  (tradeLines_sum 5 1000 2 2 (1 / 10000) 0 (by norm_num) (by norm_num)).1

/-! ## The stop-loss distance does not depend on the account size -/

/-- C10: for `funds > 0`, `pipSize > 0`, `numTrades ≥ 1` and `dailyRiskPct > 0`,
`slPips = dailyRiskPct / (100 * numTrades * pipSize)`; two states that differ only in their
positive `funds` have the same `slPips`, `tpPips`, `slPrice` and `tpPrice`. -/
theorem slPips_independent_of_funds
    (funds funds' numTrades dailyRiskPct riskReward pipSize entryPrice : ℚ)
    (hf : 0 < funds) (hf' : 0 < funds') (hn : 1 ≤ numTrades) (hp : 0 < dailyRiskPct)
    (hz : 0 < pipSize) :
    slPips (finInput funds numTrades dailyRiskPct riskReward pipSize entryPrice)
      = fin (dailyRiskPct / (100 * numTrades * pipSize)) ∧
    slPips (finInput funds' numTrades dailyRiskPct riskReward pipSize entryPrice)
      = slPips (finInput funds numTrades dailyRiskPct riskReward pipSize entryPrice) ∧
    tpPips (finInput funds' numTrades dailyRiskPct riskReward pipSize entryPrice)
      = tpPips (finInput funds numTrades dailyRiskPct riskReward pipSize entryPrice) ∧
    slPrice (finInput funds' numTrades dailyRiskPct riskReward pipSize entryPrice)
      = slPrice (finInput funds numTrades dailyRiskPct riskReward pipSize entryPrice) ∧
    tpPrice (finInput funds' numTrades dailyRiskPct riskReward pipSize entryPrice)
      = tpPrice (finInput funds numTrades dailyRiskPct riskReward pipSize entryPrice) := by
  have hn0 : 0 < numTrades := lt_of_lt_of_le one_pos hn
  have key : ∀ g : ℚ, 0 < g →
      slPips (finInput g numTrades dailyRiskPct riskReward pipSize entryPrice)
        = fin (dailyRiskPct / (100 * numTrades * pipSize)) := by
    intro g hg
    rw [slPips_valid g numTrades dailyRiskPct riskReward pipSize entryPrice hg hn0 hp.le hz]
    congr 1
    field_simp
    ring
  have h1 := key funds hf
  have h2 := key funds' hf'
  refine ⟨h1, by rw [h1, h2], ?_, ?_, ?_⟩
  · unfold tpPips
    rw [h1, h2]
    rfl
  · unfold slPrice
    rw [h1, h2]
    rfl
  · unfold tpPrice tpPips
    rw [h1, h2]
    rfl

/-- The statement of C10 at the accounts `1000` and `250`, with `numTrades = 5`,
`dailyRiskPct = 2`, `pipSize = 0.0001`: both have `slPips = 40`. -/
theorem slPips_independent_of_funds_witness :
    slPips (finInput 1000 5 2 2 (1 / 10000) (11 / 10)) = fin 40 ∧
    slPips (finInput 250 5 2 2 (1 / 10000) (11 / 10))
      = slPips (finInput 1000 5 2 2 (1 / 10000) (11 / 10)) ∧
    tpPips (finInput 250 5 2 2 (1 / 10000) (11 / 10))
      = tpPips (finInput 1000 5 2 2 (1 / 10000) (11 / 10)) ∧
    slPrice (finInput 250 5 2 2 (1 / 10000) (11 / 10))
      = slPrice (finInput 1000 5 2 2 (1 / 10000) (11 / 10)) ∧
    tpPrice (finInput 250 5 2 2 (1 / 10000) (11 / 10))
      = tpPrice (finInput 1000 5 2 2 (1 / 10000) (11 / 10)) := by
  have h := slPips_independent_of_funds 1000 250 5 2 2 (1 / 10000) (11 / 10) (by norm_num)
    (by norm_num) (by norm_num) (by norm_num) (by norm_num)
  refine ⟨?_, h.2⟩
  rw [h.1]
  norm_num

/-! ## The input handlers -/

/-- C2 fails on the code for two of its three fields: the `numTrades` handler stores a value
`≥ 1` whatever is typed, but the `dailyRiskPct` handler stores `150` and `-5` as typed (outside
`[0, 100]`) and the `riskReward` handler stores `0.05` and `-1` as typed (below `0.1`). -/
theorem handlers_do_not_clamp :
    (∀ v : JSNum, numTradesOnChange v = posInf ∨
      ∃ q : ℚ, numTradesOnChange v = fin q ∧ 1 ≤ q) ∧
    dailyRiskPctOnChange (fin 150) = fin 150 ∧
    dailyRiskPctOnChange (fin (-5)) = fin (-5) ∧
    riskRewardOnChange (fin (1 / 20)) = fin (1 / 20) ∧
    riskRewardOnChange (fin (-1)) = fin (-1) ∧
    ¬((150 : ℚ) ≤ 100) ∧ ¬((0 : ℚ) ≤ -5) ∧ ¬((1 / 10 : ℚ) ≤ 1 / 20) ∧ ¬((1 / 10 : ℚ) ≤ -1) := by
  refine ⟨?_, ?_, ?_, ?_, ?_, by norm_num, by norm_num, by norm_num, by norm_num⟩
  · intro v
    unfold numTradesOnChange JSNum.or
    cases v with
    | nan => right; exact ⟨1, by simp [truthy, max2], le_refl _⟩
    | posInf => left; simp [truthy, max2]
    | negInf => right; exact ⟨1, by simp [truthy, max2], le_refl _⟩
    | fin q =>
      right
      by_cases hq : q = 0
      · exact ⟨1, by simp [hq, max2], le_refl _⟩
      · exact ⟨max 1 q, by simp [hq, max2], le_max_left _ _⟩
  · simp [dailyRiskPctOnChange, JSNum.or]
  · simp [dailyRiskPctOnChange, JSNum.or]
  · simp [riskRewardOnChange, JSNum.or]
  · simp [riskRewardOnChange, JSNum.or]

end TradeRisk

/-! # Theorems in binary64 arithmetic -/

namespace TradeRisk

namespace Binary64

open F64

/-! ## Rounding to the nearest integer -/

theorem roundEven_of_abs_sub_lt (t : ℚ) (m : ℤ) (h : |t - m| < 1 / 2) : roundEven t = m := by
  rw [abs_lt] at h
  obtain ⟨h1, h2⟩ := h
  unfold roundEven
  by_cases hm : (m : ℚ) ≤ t
  · have hf : ⌊t⌋ = m := Int.floor_eq_iff.mpr ⟨hm, by linarith⟩
    rw [hf, if_pos (by linarith)]
  · have hf : ⌊t⌋ = m - 1 := Int.floor_eq_iff.mpr ⟨by push_cast; linarith, by push_cast; linarith⟩
    rw [hf]
    push_cast
    rw [if_neg (by linarith), if_pos (by linarith)]
    ring

theorem floor_le_roundEven (t : ℚ) : ⌊t⌋ ≤ roundEven t := by
  unfold roundEven
  split_ifs <;> omega

theorem roundEven_le_floor_add_one (t : ℚ) : roundEven t ≤ ⌊t⌋ + 1 := by
  unfold roundEven
  split_ifs <;> omega

theorem le_roundEven {t : ℚ} {N : ℤ} (h : (N : ℚ) ≤ t) : N ≤ roundEven t :=
  le_trans (Int.le_floor.mpr h) (floor_le_roundEven t)

theorem roundEven_le {t : ℚ} {N : ℤ} (h : t ≤ (N : ℚ)) : roundEven t ≤ N := by
  rcases h.eq_or_lt with h | h
  · rw [roundEven_of_abs_sub_lt t N (by rw [h]; norm_num)]
  · have : ⌊t⌋ < N := Int.floor_lt.mpr h
    have := roundEven_le_floor_add_one t
    omega

theorem roundEven_eq_zero {t : ℚ} (h : |t| ≤ 1 / 2) : roundEven t = 0 := by
  rw [abs_le] at h
  obtain ⟨h1, h2⟩ := h
  rcases h2.eq_or_lt with h2 | h2
  · have hf : ⌊t⌋ = 0 := Int.floor_eq_iff.mpr ⟨by rw [h2]; norm_num, by rw [h2]; norm_num⟩
    unfold roundEven
    rw [hf, h2]
    norm_num
  · rcases h1.eq_or_lt with h1 | h1
    · have hf : ⌊t⌋ = -1 := Int.floor_eq_iff.mpr ⟨by rw [← h1]; norm_num, by rw [← h1]; norm_num⟩
      unfold roundEven
      rw [hf, ← h1]
      norm_num
    · exact roundEven_of_abs_sub_lt t 0 (by rw [abs_lt]; constructor <;> simp <;> linarith)

theorem roundEven_ne_zero {t : ℚ} (h : 1 / 2 < |t|) : roundEven t ≠ 0 := by
  rcases lt_abs.mp h with h | h
  · by_cases h1 : (1 : ℚ) ≤ t
    · have := le_roundEven (N := 1) (by exact_mod_cast h1)
      omega
    · rw [roundEven_of_abs_sub_lt t 1 (by rw [abs_lt]; constructor <;> push_cast <;> linarith)]
      norm_num
  · by_cases h1 : t ≤ (-1 : ℚ)
    · have := roundEven_le (N := -1) (by exact_mod_cast h1)
      omega
    · rw [roundEven_of_abs_sub_lt t (-1) (by rw [abs_lt]; constructor <;> push_cast <;> linarith)]
      norm_num

/-! ## The binary64 grid -/

theorem log_abs_eq {x : ℚ} {e : ℤ} (h1 : (2 : ℚ) ^ e ≤ |x|) (h2 : |x| < (2 : ℚ) ^ (e + 1)) :
    Int.log 2 |x| = e := by
  have hpos : (0 : ℚ) < |x| := lt_of_lt_of_le (zpow_pos (by norm_num) e) h1
  have ha : e ≤ Int.log 2 |x| := by
    rw [← Int.zpow_le_iff_le_log (by norm_num) hpos]
    exact_mod_cast h1
  have hb : Int.log 2 |x| < e + 1 := by
    rw [← Int.lt_zpow_iff_log_lt (by norm_num) hpos]
    exact_mod_cast h2
  omega

theorem quantum_pos (x : ℚ) : 0 < quantum x := zpow_pos (by norm_num) _

theorem quantum_of_normal {x : ℚ} {e : ℤ} (he : -1022 ≤ e) (h1 : (2 : ℚ) ^ e ≤ |x|)
    (h2 : |x| < (2 : ℚ) ^ (e + 1)) : quantum x = (2 : ℚ) ^ (e - 52) := by
  unfold quantum
  rw [log_abs_eq h1 h2, max_eq_left he]

theorem quantum_of_subnormal {x : ℚ} (h0 : x ≠ 0) (h : |x| < (2 : ℚ) ^ (-1022 : ℤ)) :
    quantum x = (2 : ℚ) ^ (-1074 : ℤ) := by
  have hpos : (0 : ℚ) < |x| := abs_pos.mpr h0
  have hlog : Int.log 2 |x| < -1022 := by
    rw [← Int.lt_zpow_iff_log_lt (by norm_num) hpos]
    exact_mod_cast h
  unfold quantum
  rw [max_eq_right hlog.le]
  norm_num

/-- The exponent of a number at or above the smallest normal one. -/
theorem exists_exponent {x : ℚ} (h : (2 : ℚ) ^ (-1022 : ℤ) ≤ |x|) :
    ∃ e : ℤ, -1022 ≤ e ∧ (2 : ℚ) ^ e ≤ |x| ∧ |x| < (2 : ℚ) ^ (e + 1) := by
  have hpos : (0 : ℚ) < |x| := lt_of_lt_of_le (zpow_pos (by norm_num) _) h
  refine ⟨Int.log 2 |x|, ?_, ?_, ?_⟩
  · rw [← Int.zpow_le_iff_le_log (by norm_num) hpos]
    exact_mod_cast h
  · exact_mod_cast Int.zpow_log_le_self (b := 2) (by norm_num) hpos
  · exact_mod_cast Int.lt_zpow_succ_log_self (b := 2) (by norm_num) |x|

theorem nearest_zero : nearest 0 = 0 := by
  unfold nearest
  rw [zero_div, roundEven_eq_zero (by norm_num)]
  simp

theorem nearest_of_normal {x : ℚ} {e m : ℤ} (he : -1022 ≤ e) (h1 : (2 : ℚ) ^ e ≤ |x|)
    (h2 : |x| < (2 : ℚ) ^ (e + 1)) (hm : |x / (2 : ℚ) ^ (e - 52) - m| < 1 / 2) :
    nearest x = m * (2 : ℚ) ^ (e - 52) := by
  unfold nearest
  rw [quantum_of_normal he h1 h2, roundEven_of_abs_sub_lt _ m hm]

theorem nearest_of_subnormal {x : ℚ} {m : ℤ} (h0 : x ≠ 0) (h : |x| < (2 : ℚ) ^ (-1022 : ℤ))
    (hm : |x / (2 : ℚ) ^ (-1074 : ℤ) - m| < 1 / 2) :
    nearest x = m * (2 : ℚ) ^ (-1074 : ℤ) := by
  unfold nearest
  rw [quantum_of_subnormal h0 h, roundEven_of_abs_sub_lt _ m hm]

/-- Underflow: at most half the smallest subnormal number rounds to zero. -/
theorem nearest_eq_zero {x : ℚ} (h : |x| ≤ (2 : ℚ) ^ (-1075 : ℤ)) : nearest x = 0 := by
  by_cases h0 : x = 0
  · rw [h0, nearest_zero]
  · have hsub : |x| < (2 : ℚ) ^ (-1022 : ℤ) :=
      lt_of_le_of_lt h (zpow_lt_zpow_right₀ (by norm_num) (by norm_num))
    unfold nearest
    rw [quantum_of_subnormal h0 hsub, roundEven_eq_zero, Int.cast_zero, zero_mul]
    rw [abs_div, abs_of_pos (zpow_pos (by norm_num : (0 : ℚ) < 2) (-1074)),
      div_le_iff₀ (zpow_pos (by norm_num) _)]
    calc |x| ≤ (2 : ℚ) ^ (-1075 : ℤ) := h
      _ = 1 / 2 * (2 : ℚ) ^ (-1074 : ℤ) := by
          rw [show (-1074 : ℤ) = -1075 + 1 by norm_num, zpow_add_one₀ (by norm_num)]
          ring

/-- No underflow to zero above half the smallest subnormal number. -/
theorem nearest_ne_zero {x : ℚ} (h : (2 : ℚ) ^ (-1075 : ℤ) < |x|) : nearest x ≠ 0 := by
  have h0 : x ≠ 0 := by
    rintro rfl
    rw [abs_zero] at h
    exact absurd h (not_lt.mpr (zpow_pos (by norm_num) _).le)
  unfold nearest
  apply mul_ne_zero _ (quantum_pos x).ne'
  rw [Int.cast_ne_zero]
  apply roundEven_ne_zero
  rw [abs_div, abs_of_pos (quantum_pos x), lt_div_iff₀ (quantum_pos x)]
  by_cases hsub : |x| < (2 : ℚ) ^ (-1022 : ℤ)
  · rw [quantum_of_subnormal h0 hsub]
    calc 1 / 2 * (2 : ℚ) ^ (-1074 : ℤ) = (2 : ℚ) ^ (-1075 : ℤ) := by
          rw [show (-1074 : ℤ) = -1075 + 1 by norm_num, zpow_add_one₀ (by norm_num)]
          ring
      _ < |x| := h
  · obtain ⟨e, he, h1, h2⟩ := exists_exponent (not_lt.mp hsub)
    rw [quantum_of_normal he h1 h2]
    calc 1 / 2 * (2 : ℚ) ^ (e - 52) < 1 * (2 : ℚ) ^ (e - 52) := by
          apply mul_lt_mul_of_pos_right (by norm_num) (zpow_pos (by norm_num) _)
      _ = (2 : ℚ) ^ (e - 52) := one_mul _
      _ ≤ (2 : ℚ) ^ e := zpow_le_zpow_right₀ (by norm_num) (by omega)
      _ ≤ |x| := h1

/-- Rounding does not cross a power of two: a number at or above `2 ^ e` (here for `e ≥ 0`,
at `1`) stays there. -/
theorem one_le_nearest {x : ℚ} (h : 1 ≤ x) : 1 ≤ nearest x := by
  have hx : |x| = x := abs_of_pos (by linarith)
  have hn : (2 : ℚ) ^ (-1022 : ℤ) ≤ |x| := by
    rw [hx]
    exact le_trans (zpow_le_one_of_nonpos₀ (by norm_num) (by norm_num)) h
  obtain ⟨e, he, h1, h2⟩ := exists_exponent hn
  have he0 : 0 ≤ e := by
    by_contra hc
    have : (2 : ℚ) ^ (e + 1) ≤ 1 := zpow_le_one_of_nonpos₀ (by norm_num) (by omega)
    rw [hx] at h2
    linarith
  unfold nearest
  rw [quantum_of_normal he h1 h2]
  have hq : (0 : ℚ) < (2 : ℚ) ^ (e - 52) := zpow_pos (by norm_num) _
  have hsplit : (2 : ℚ) ^ e = (2 : ℚ) ^ (52 : ℤ) * (2 : ℚ) ^ (e - 52) := by
    rw [← zpow_add₀ (by norm_num)]
    congr 1
    ring
  have hr : ((2 ^ 52 : ℤ) : ℚ) ≤ x / (2 : ℚ) ^ (e - 52) := by
    rw [le_div_iff₀ hq]
    rw [hx] at h1
    calc ((2 ^ 52 : ℤ) : ℚ) * (2 : ℚ) ^ (e - 52) = (2 : ℚ) ^ e := by
          rw [hsplit]
          norm_num
      _ ≤ x := h1
  have hm := le_roundEven hr
  have hm' : ((2 ^ 52 : ℤ) : ℚ) ≤ (roundEven (x / (2 : ℚ) ^ (e - 52)) : ℚ) := by
    exact_mod_cast hm
  calc (1 : ℚ) ≤ (2 : ℚ) ^ e := one_le_zpow₀ (by norm_num) he0
    _ = ((2 ^ 52 : ℤ) : ℚ) * (2 : ℚ) ^ (e - 52) := by
        rw [hsplit]
        norm_num
    _ ≤ (roundEven (x / (2 : ℚ) ^ (e - 52)) : ℚ) * (2 : ℚ) ^ (e - 52) :=
        mul_le_mul_of_nonneg_right hm' hq.le

/-! ## Rounding into binary64 -/

/-- Half a quantum around a grid point, in units of the quantum. -/
theorem abs_div_sub_lt_half {x y q h : ℚ} {m : ℤ} (hq : 0 < q) (hy : y = m * q)
    (hh : h = 1 / 2 * q) (hlo : y - h < x) (hhi : x < y + h) : |x / q - m| < 1 / 2 := by
  rw [abs_lt]
  constructor
  · rw [lt_sub_iff_add_lt, lt_div_iff₀ hq]
    rw [hy, hh] at hlo
    linarith
  · rw [sub_lt_iff_lt_add, div_lt_iff₀ hq]
    rw [hy, hh] at hhi
    linarith

theorem rnd_of_nearest {b : Bool} {x y : ℚ} (hy : nearest x = y) (h0 : y ≠ 0)
    (hlo : -(2 : ℚ) ^ 1024 < y) (hhi : y < (2 : ℚ) ^ 1024) : rnd b x = fin y := by
  unfold rnd
  rw [hy, if_neg (not_le.mpr hhi), if_neg (not_le.mpr hlo), if_neg h0]

theorem rnd_zero_false : rnd false 0 = fin 0 := by
  unfold rnd
  rw [nearest_zero]
  norm_num

theorem isZero_rnd {b : Bool} {x : ℚ} (h : nearest x = 0) : isZero (rnd b x) = true := by
  unfold rnd
  rw [h]
  norm_num
  split_ifs <;> simp [isZero]

theorem rnd_underflow_of_nonneg {x : ℚ} (h0 : 0 ≤ x) (h : x ≤ (2 : ℚ) ^ (-1075 : ℤ)) :
    rnd false x = fin 0 := by
  have hn : nearest x = 0 := nearest_eq_zero (by rw [abs_of_nonneg h0]; exact h)
  unfold rnd
  rw [hn]
  norm_num
  intro hneg
  exact absurd hneg (not_lt.mpr h0)

/-- The grid point nearest to a positive number `x` of exponent `e`: it is
`y = m * 2 ^ (e - 52)` when `y` lies within half a quantum of `x`. -/
theorem nearest_normal (x y : ℚ) (e m : ℤ) (he1 : -1022 ≤ e)
    (h1 : (2 : ℚ) ^ e ≤ x) (h2 : x < (2 : ℚ) ^ (e + 1)) (hy : y = m * (2 : ℚ) ^ (e - 52))
    (hlo : y - (2 : ℚ) ^ (e - 53) < x) (hhi : x < y + (2 : ℚ) ^ (e - 53)) :
    nearest x = y := by
  have hxpos : 0 < x := lt_of_lt_of_le (zpow_pos (by norm_num) e) h1
  have hx : |x| = x := abs_of_pos hxpos
  have hq : (0 : ℚ) < (2 : ℚ) ^ (e - 52) := zpow_pos (by norm_num) _
  have hhalf : (2 : ℚ) ^ (e - 53) = 1 / 2 * (2 : ℚ) ^ (e - 52) := by
    rw [show e - 52 = (e - 53) + 1 by ring, zpow_add_one₀ (by norm_num)]
    ring
  have hm : |x / (2 : ℚ) ^ (e - 52) - m| < 1 / 2 := abs_div_sub_lt_half hq hy hhalf hlo hhi
  rw [hy]
  exact nearest_of_normal he1 (by rw [hx]; exact h1) (by rw [hx]; exact h2) hm

/-- Evaluation of a rounding in the normal range: `y = m * 2 ^ (e - 52)` is the grid point
within half a quantum of the positive number `x`, whose exponent is `e`. -/
theorem rnd_normal (b : Bool) (x y : ℚ) (e m : ℤ) (he1 : -1022 ≤ e) (he2 : e ≤ 1022)
    (h1 : (2 : ℚ) ^ e ≤ x) (h2 : x < (2 : ℚ) ^ (e + 1)) (hy : y = m * (2 : ℚ) ^ (e - 52))
    (hlo : y - (2 : ℚ) ^ (e - 53) < x) (hhi : x < y + (2 : ℚ) ^ (e - 53)) :
    rnd b x = fin y := by
  have hn : nearest x = y := nearest_normal x y e m he1 h1 h2 hy hlo hhi
  have hsmall : (2 : ℚ) ^ (e - 53) < (2 : ℚ) ^ e := zpow_lt_zpow_right₀ (by norm_num) (by omega)
  have hypos : 0 < y := by linarith
  have hbig : (2 : ℚ) ^ (e + 1) + (2 : ℚ) ^ e ≤ (2 : ℚ) ^ 1024 := by
    have ha : (2 : ℚ) ^ (e + 1) ≤ (2 : ℚ) ^ (1023 : ℤ) :=
      zpow_le_zpow_right₀ (by norm_num) (by omega)
    have hb : (2 : ℚ) ^ e ≤ (2 : ℚ) ^ (1023 : ℤ) := zpow_le_zpow_right₀ (by norm_num) (by omega)
    have hc : (2 : ℚ) ^ (1023 : ℤ) + (2 : ℚ) ^ (1023 : ℤ) = (2 : ℚ) ^ 1024 := by norm_num
    linarith
  exact rnd_of_nearest hn hypos.ne' (by linarith [zpow_pos (by norm_num : (0 : ℚ) < 2) 1024])
    (by linarith)

/-- Evaluation of a rounding in the subnormal range: `y = m * 2 ^ (-1074)` is the grid point
within half a quantum of the positive number `x`. -/
theorem rnd_subnormal (b : Bool) (x y : ℚ) (m : ℤ) (h0 : 0 < y)
    (h : x < (2 : ℚ) ^ (-1022 : ℤ)) (hy : y = m * (2 : ℚ) ^ (-1074 : ℤ))
    (hlo : y - (2 : ℚ) ^ (-1075 : ℤ) < x) (hhi : x < y + (2 : ℚ) ^ (-1075 : ℤ))
    (hxpos : 0 < x) : rnd b x = fin y := by
  have hx : |x| = x := abs_of_pos hxpos
  have hq : (0 : ℚ) < (2 : ℚ) ^ (-1074 : ℤ) := zpow_pos (by norm_num) _
  have hhalf : (2 : ℚ) ^ (-1075 : ℤ) = 1 / 2 * (2 : ℚ) ^ (-1074 : ℤ) := by
    rw [show (-1074 : ℤ) = -1075 + 1 by norm_num, zpow_add_one₀ (by norm_num)]
    ring
  have hm : |x / (2 : ℚ) ^ (-1074 : ℤ) - m| < 1 / 2 :=
    abs_div_sub_lt_half hq hy hhalf hlo hhi
  have hn : nearest x = y := by
    rw [hy]
    exact nearest_of_subnormal hxpos.ne' (by rw [hx]; exact h) hm
  have h1 : (2 : ℚ) ^ (-1075 : ℤ) < (2 : ℚ) ^ (-1022 : ℤ) :=
    zpow_lt_zpow_right₀ (by norm_num) (by norm_num)
  have h2 : (2 : ℚ) ^ (-1022 : ℤ) ≤ 1 := zpow_le_one_of_nonpos₀ (by norm_num) (by norm_num)
  have h3 : (1 : ℚ) < (2 : ℚ) ^ 1024 := one_lt_pow₀ (by norm_num) (by norm_num)
  exact rnd_of_nearest hn h0.ne' (by linarith) (by linarith)

/-! ## The operations on finite numbers -/

theorem mul_fin64 (a b : ℚ) :
    mul (fin a) (fin b) = rnd (xor (decide (a < 0)) (decide (b < 0))) (a * b) := by
  simp [mul, isNaN, isInf, isNeg, rat]

theorem div_fin64 (a : ℚ) {b : ℚ} (hb : b ≠ 0) :
    div (fin a) (fin b) = rnd (xor (decide (a < 0)) (decide (b < 0))) (a / b) := by
  simp [div, isNaN, isInf, isNeg, isZero, rat, hb]

theorem div_fin64_zero {a : ℚ} (ha : 0 < a) : div (fin a) (fin 0) = posInf := by
  simp [div, isNaN, isInf, isNeg, isZero, rat, ha.ne', not_lt.mpr ha.le, inf]

theorem add_fin64 (a b : ℚ) :
    add (fin a) (fin b) = rnd (decide (a < 0) && decide (b < 0)) (a + b) := by
  simp [add, isNaN, isInf, isNeg, rat]

theorem sub_fin64 (a b : ℚ) :
    sub (fin a) (fin b) = rnd (decide (a < 0) && !decide (b < 0)) (a - b) := by
  simp [sub, isNaN, isInf, isNeg, rat]

theorem gt_fin64 (a b : ℚ) : gt (fin a) (fin b) = decide (b < a) := by
  simp [gt, isNaN, isInf, rat]

theorem truthy_fin64 (a : ℚ) : truthy (fin a) = decide (a ≠ 0) := by
  simp [truthy, isNaN, isZero]

theorem truthy_and64 (a b : F64) : truthy (F64.and a b) = (truthy a && truthy b) := by
  unfold F64.and
  cases h : truthy a <;> simp [h]

theorem min2_fin64 (a b : ℚ) : min2 (fin a) (fin b) = fin (min a b) := by
  unfold min2
  simp only [isNaN, gt_fin64, Bool.or_self, Bool.false_eq_true, if_false, decide_eq_true_eq]
  rcases lt_trichotomy a b with h | h | h
  · rw [if_neg (not_lt.mpr h.le), if_pos h, min_eq_left h.le]
  · subst h
    simp
  · rw [if_pos h, min_eq_right h.le]

theorem min2_posInf_fin64 (b : ℚ) : min2 posInf (fin b) = fin b := by
  simp [min2, isNaN, gt, isInf, isNeg]

/-! ## Zeros, NaN and truthiness -/

theorem truthy_rnd (b : Bool) (x : ℚ) : truthy (rnd b x) = decide (nearest x ≠ 0) := by
  unfold rnd
  have hpos : (0 : ℚ) < (2 : ℚ) ^ 1024 := by positivity
  split_ifs with h1 h2 h3 h4
  · have : nearest x ≠ 0 := by intro h; rw [h] at h1; linarith
    simp [truthy, isNaN, isZero, this]
  · have : nearest x ≠ 0 := by intro h; rw [h] at h2; linarith
    simp [truthy, isNaN, isZero, this]
  · simp [truthy, isNaN, isZero, h3]
  · simp [truthy, isNaN, isZero, h3]
  · simp [truthy, isNaN, isZero, h3]

theorem zeroOrNaN_rnd_zero (b : Bool) : zeroOrNaN (rnd b 0) = true := by
  unfold zeroOrNaN
  rw [isZero_rnd nearest_zero]
  rfl

theorem facts_of_isZero {a : F64} (h : isZero a = true) :
    isNaN a = false ∧ isInf a = false ∧ rat a = 0 := by
  cases a <;> simp_all [isZero, isNaN, isInf, rat]

theorem zeroOrNaN_nan : zeroOrNaN nan = true := rfl

theorem zeroOrNaN_cases {a : F64} (h : zeroOrNaN a = true) : a = nan ∨ isZero a = true := by
  cases a <;> simp_all [zeroOrNaN, isZero, isNaN]

theorem zeroOrNaN_mul_left {a : F64} (b : F64) (h : zeroOrNaN a = true) :
    zeroOrNaN (mul a b) = true := by
  rcases zeroOrNaN_cases h with h | h
  · rw [h]
    simp [mul, isNaN, zeroOrNaN]
  · obtain ⟨h1, h2, h3⟩ := facts_of_isZero h
    unfold mul
    rw [h1, h2, h3, h, zero_mul]
    by_cases hb : isNaN b = true
    · rw [hb]
      exact zeroOrNaN_nan
    · rw [Bool.not_eq_true] at hb
      rw [hb]
      by_cases hi : isInf b = true
      · rw [hi]
        exact zeroOrNaN_nan
      · rw [Bool.not_eq_true] at hi
        rw [hi]
        exact zeroOrNaN_rnd_zero _

theorem zeroOrNaN_zero (s : Bool) : zeroOrNaN (zero s) = true := by
  cases s <;> simp [zero, zeroOrNaN, isZero]

theorem zeroOrNaN_div_left {a : F64} (b : F64) (h : zeroOrNaN a = true) :
    zeroOrNaN (div a b) = true := by
  rcases zeroOrNaN_cases h with h | h
  · rw [h]
    simp [div, isNaN, zeroOrNaN]
  · obtain ⟨h1, h2, h3⟩ := facts_of_isZero h
    unfold div
    rw [h1, h2, h3, h, zero_div]
    by_cases hb : isNaN b = true
    · rw [hb]
      exact zeroOrNaN_nan
    · rw [Bool.not_eq_true] at hb
      rw [hb]
      by_cases hi : isInf b = true
      · rw [hi]
        exact zeroOrNaN_zero _
      · rw [Bool.not_eq_true] at hi
        rw [hi]
        by_cases hz : isZero b = true
        · rw [hz]
          exact zeroOrNaN_nan
        · rw [Bool.not_eq_true] at hz
          rw [hz]
          exact zeroOrNaN_rnd_zero _

theorem gt_zero_of_zeroOrNaN {a : F64} (h : zeroOrNaN a = true) : gt a (fin 0) = false := by
  cases a with
  | nan => simp [gt, isNaN]
  | posInf => simp [zeroOrNaN, isZero, isNaN] at h
  | negInf => simp [zeroOrNaN, isZero, isNaN] at h
  | negZero => simp [gt, isNaN, isInf, rat]
  | fin q =>
    have hq : q = 0 := by simpa [zeroOrNaN, isZero, isNaN] using h
    simp [gt, isNaN, isInf, rat, hq]

theorem truthy_eq_false_of_zeroOrNaN {a : F64} (h : zeroOrNaN a = true) : truthy a = false := by
  cases a <;> simp_all [zeroOrNaN, truthy, isZero, isNaN]

theorem zeroOrNaN_of_isZero {a : F64} (h : isZero a = true) : zeroOrNaN a = true := by
  simp [zeroOrNaN, h]

/-- A number above zero divided by a zero is an infinity. -/
theorem div_zero_of_gt {a b : F64} (ha : gt a (fin 0) = true) (hb : isZero b = true) :
    div a b = posInf ∨ div a b = negInf := by
  cases a with
  | nan => simp [gt, isNaN] at ha
  | negInf => simp [gt, isNaN, isInf, isNeg] at ha
  | negZero => simp [gt, isNaN, isInf, rat] at ha
  | posInf =>
    cases b with
    | negZero => right; simp [div, isNaN, isInf, isNeg, inf]
    | fin r => left; have hr : r = 0 := by simpa [isZero] using hb
               simp [div, isNaN, isInf, isNeg, inf, hr]
    | nan => simp [isZero] at hb
    | posInf => simp [isZero] at hb
    | negInf => simp [isZero] at hb
  | fin q =>
    have hq : 0 < q := by simpa [gt, isNaN, isInf, rat] using ha
    cases b with
    | negZero =>
      right
      simp [div, isNaN, isInf, isNeg, isZero, inf, hq.ne', not_lt.mpr hq.le]
    | fin r =>
      left
      have hr : r = 0 := by simpa [isZero] using hb
      rw [hr]
      exact div_fin64_zero hq
    | nan => simp [isZero] at hb
    | posInf => simp [isZero] at hb
    | negInf => simp [isZero] at hb

theorem or_isZero_false (v : F64) {d : F64} (hd : isZero d = false) :
    isZero (F64.or v d) = false := by
  unfold F64.or
  by_cases h : truthy v = true
  · rw [if_pos h]
    cases v <;> simp_all [truthy, isZero, isNaN]
  · rw [if_neg h]
    exact hd

/-! ## Evaluation of single operations -/

theorem isZero_rnd_eq (b : Bool) (x : ℚ) : isZero (rnd b x) = decide (nearest x = 0) := by
  unfold rnd
  have hpos : (0 : ℚ) < (2 : ℚ) ^ 1024 := by positivity
  split_ifs with h1 h2 h3 h4
  · have : nearest x ≠ 0 := by intro h; rw [h] at h1; linarith
    simp [isZero, this]
  · have : nearest x ≠ 0 := by intro h; rw [h] at h2; linarith
    simp [isZero, this]
  · simp [isZero, h3]
  · simp [isZero, h3]
  · simp [isZero, h3]

theorem ofDecimal_normal (x y : ℚ) (e m : ℤ) (he1 : -1022 ≤ e) (he2 : e ≤ 1022)
    (h1 : (2 : ℚ) ^ e ≤ x) (h2 : x < (2 : ℚ) ^ (e + 1)) (hy : y = m * (2 : ℚ) ^ (e - 52))
    (hlo : y - (2 : ℚ) ^ (e - 53) < x) (hhi : x < y + (2 : ℚ) ^ (e - 53)) :
    ofDecimal x = fin y :=
  rnd_normal false x y e m he1 he2 h1 h2 hy hlo hhi

theorem ofDecimal_subnormal (x y : ℚ) (m : ℤ) (h0 : 0 < y)
    (h : x < (2 : ℚ) ^ (-1022 : ℤ)) (hy : y = m * (2 : ℚ) ^ (-1074 : ℤ))
    (hlo : y - (2 : ℚ) ^ (-1075 : ℤ) < x) (hhi : x < y + (2 : ℚ) ^ (-1075 : ℤ))
    (hxpos : 0 < x) : ofDecimal x = fin y :=
  rnd_subnormal false x y m h0 h hy hlo hhi hxpos

theorem ofDecimal_zero : ofDecimal 0 = fin 0 := rnd_zero_false

theorem mul_normal (a b y : ℚ) (e m : ℤ) (he1 : -1022 ≤ e) (he2 : e ≤ 1022)
    (h1 : (2 : ℚ) ^ e ≤ a * b) (h2 : a * b < (2 : ℚ) ^ (e + 1))
    (hy : y = m * (2 : ℚ) ^ (e - 52))
    (hlo : y - (2 : ℚ) ^ (e - 53) < a * b) (hhi : a * b < y + (2 : ℚ) ^ (e - 53)) :
    mul (fin a) (fin b) = fin y := by
  rw [mul_fin64]
  exact rnd_normal _ _ y e m he1 he2 h1 h2 hy hlo hhi

theorem mul_subnormal (a b y : ℚ) (m : ℤ) (h0 : 0 < y)
    (h : a * b < (2 : ℚ) ^ (-1022 : ℤ)) (hy : y = m * (2 : ℚ) ^ (-1074 : ℤ))
    (hlo : y - (2 : ℚ) ^ (-1075 : ℤ) < a * b) (hhi : a * b < y + (2 : ℚ) ^ (-1075 : ℤ))
    (hxpos : 0 < a * b) : mul (fin a) (fin b) = fin y := by
  rw [mul_fin64]
  exact rnd_subnormal _ _ y m h0 h hy hlo hhi hxpos

theorem mul_underflow (a b : ℚ) (ha : 0 ≤ a) (hb : 0 ≤ b)
    (h : a * b ≤ (2 : ℚ) ^ (-1075 : ℤ)) : mul (fin a) (fin b) = fin 0 := by
  rw [mul_fin64]
  have h1 : decide (a < 0) = false := by simpa using ha
  have h2 : decide (b < 0) = false := by simpa using hb
  rw [h1, h2]
  exact rnd_underflow_of_nonneg (mul_nonneg ha hb) h

theorem div_normal (a b y : ℚ) (e m : ℤ) (hb : b ≠ 0) (he1 : -1022 ≤ e) (he2 : e ≤ 1022)
    (h1 : (2 : ℚ) ^ e ≤ a / b) (h2 : a / b < (2 : ℚ) ^ (e + 1))
    (hy : y = m * (2 : ℚ) ^ (e - 52))
    (hlo : y - (2 : ℚ) ^ (e - 53) < a / b) (hhi : a / b < y + (2 : ℚ) ^ (e - 53)) :
    div (fin a) (fin b) = fin y := by
  rw [div_fin64 _ hb]
  exact rnd_normal _ _ y e m he1 he2 h1 h2 hy hlo hhi

theorem div_subnormal (a b y : ℚ) (m : ℤ) (hb : b ≠ 0) (h0 : 0 < y)
    (h : a / b < (2 : ℚ) ^ (-1022 : ℤ)) (hy : y = m * (2 : ℚ) ^ (-1074 : ℤ))
    (hlo : y - (2 : ℚ) ^ (-1075 : ℤ) < a / b) (hhi : a / b < y + (2 : ℚ) ^ (-1075 : ℤ))
    (hxpos : 0 < a / b) : div (fin a) (fin b) = fin y := by
  rw [div_fin64 _ hb]
  exact rnd_subnormal _ _ y m h0 h hy hlo hhi hxpos

theorem add_normal (a b y : ℚ) (e m : ℤ) (he1 : -1022 ≤ e) (he2 : e ≤ 1022)
    (h1 : (2 : ℚ) ^ e ≤ a + b) (h2 : a + b < (2 : ℚ) ^ (e + 1))
    (hy : y = m * (2 : ℚ) ^ (e - 52))
    (hlo : y - (2 : ℚ) ^ (e - 53) < a + b) (hhi : a + b < y + (2 : ℚ) ^ (e - 53)) :
    add (fin a) (fin b) = fin y := by
  rw [add_fin64]
  exact rnd_normal _ _ y e m he1 he2 h1 h2 hy hlo hhi

theorem sub_normal (a b y : ℚ) (e m : ℤ) (he1 : -1022 ≤ e) (he2 : e ≤ 1022)
    (h1 : (2 : ℚ) ^ e ≤ a - b) (h2 : a - b < (2 : ℚ) ^ (e + 1))
    (hy : y = m * (2 : ℚ) ^ (e - 52))
    (hlo : y - (2 : ℚ) ^ (e - 53) < a - b) (hhi : a - b < y + (2 : ℚ) ^ (e - 53)) :
    sub (fin a) (fin b) = fin y := by
  rw [sub_fin64]
  exact rnd_normal _ _ y e m he1 he2 h1 h2 hy hlo hhi

/-- Evaluation of `+(q).toFixed(5)` at a non-negative `q` below `10^21`: `k` is the integer
printed (without the decimal point) and `y` the binary64 number nearest to `k / 10^5`. -/
theorem toFixed5_normal (q y : ℚ) (k e m : ℤ) (h0 : 0 ≤ q) (hq : q < 10 ^ 21)
    (hk1 : (k : ℚ) ≤ q * 10 ^ 5 + 1 / 2) (hk2 : q * 10 ^ 5 + 1 / 2 < k + 1)
    (he1 : -1022 ≤ e) (he2 : e ≤ 1022)
    (h1 : (2 : ℚ) ^ e ≤ (k : ℚ) / 10 ^ 5) (h2 : (k : ℚ) / 10 ^ 5 < (2 : ℚ) ^ (e + 1))
    (hy : y = m * (2 : ℚ) ^ (e - 52))
    (hlo : y - (2 : ℚ) ^ (e - 53) < (k : ℚ) / 10 ^ 5)
    (hhi : (k : ℚ) / 10 ^ 5 < y + (2 : ℚ) ^ (e - 53)) :
    toFixed5 (fin q) = fin y := by
  have hfix : toFixed5 (fin q) =
      if 10 ^ 21 ≤ |q| then fin q
      else if q < 0 then rnd true (-((⌊(-q) * 10 ^ 5 + 1 / 2⌋ : ℤ) : ℚ) / 10 ^ 5)
      else rnd false (((⌊q * 10 ^ 5 + 1 / 2⌋ : ℤ) : ℚ) / 10 ^ 5) := rfl
  rw [hfix, if_neg (by rw [abs_of_nonneg h0]; exact not_le.mpr hq), if_neg (not_lt.mpr h0),
    Int.floor_eq_iff.mpr ⟨hk1, hk2⟩]
  exact rnd_normal _ _ y e m he1 he2 h1 h2 hy hlo hhi

/-! ## The engine on zero denominators and zero pips -/

theorem slPips_of_guard_false {s : Input} (h : gt (perTradeRisk s) (fin 0) = false) :
    slPips s = fin 0 := by
  unfold slPips
  rw [h]
  rfl

theorem slPips_of_guard_true {s : Input} (h : gt (perTradeRisk s) (fin 0) = true) :
    slPips s = div (perTradeRisk s) (mul s.pipSize s.funds) := by
  unfold slPips
  rw [h]
  rfl

theorem perTradeRisk_zeroOrNaN {s : Input} (h : isZero s.funds = true) :
    zeroOrNaN (perTradeRisk s) = true := by
  unfold perTradeRisk
  split_ifs
  · exact zeroOrNaN_div_left _ (zeroOrNaN_mul_left _ (zeroOrNaN_of_isZero h))
  · rfl

theorem tpPips_zeroOrNaN {s : Input} (h : isZero (slPips s) = true) :
    zeroOrNaN (tpPips s) = true :=
  zeroOrNaN_mul_left _ (zeroOrNaN_of_isZero h)

theorem slPrice_eq64 (s : Input) :
    slPrice s = if truthy s.entryPrice = true ∧ truthy (slPips s) = true then
      toFixed5 (sub s.entryPrice (mul (slPips s) s.pipSize)) else fin 0 := by
  unfold slPrice
  rw [truthy_and64]
  simp only [Bool.and_eq_true]

theorem tpPrice_eq64 (s : Input) :
    tpPrice s = if truthy s.entryPrice = true ∧ truthy (tpPips s) = true then
      toFixed5 (add s.entryPrice (mul (tpPips s) s.pipSize)) else fin 0 := by
  unfold tpPrice
  rw [truthy_and64]
  simp only [Bool.and_eq_true]

theorem truthy_tpPips {s : Input} {a r : ℚ} (ha : slPips s = fin a) (hr : s.riskReward = fin r) :
    truthy (tpPips s) = decide (nearest (a * r) ≠ 0) := by
  unfold tpPips
  rw [ha, hr, mul_fin64, truthy_rnd]

/-- Below `10^21` the expression `+(x).toFixed(5)` is the binary64 number nearest to a multiple
of `10^-5` that lies within half a unit in the fifth decimal place of `x`. -/
theorem toFixed5_rounds64 (x : ℚ) (hx : |x| < 10 ^ 21) :
    ∃ k : ℤ, ∃ b : Bool, toFixed5 (fin x) = rnd b ((k : ℚ) / 10 ^ 5) ∧
      |(k : ℚ) / 10 ^ 5 - x| ≤ 1 / (2 * 10 ^ 5) := by
  have hfix : toFixed5 (fin x) =
      if 10 ^ 21 ≤ |x| then fin x
      else if x < 0 then rnd true (-((⌊(-x) * 10 ^ 5 + 1 / 2⌋ : ℤ) : ℚ) / 10 ^ 5)
      else rnd false (((⌊x * 10 ^ 5 + 1 / 2⌋ : ℤ) : ℚ) / 10 ^ 5) := rfl
  rw [hfix, if_neg (not_le.mpr hx)]
  by_cases hneg : x < 0
  · rw [if_pos hneg]
    refine ⟨-⌊(-x) * 10 ^ 5 + 1 / 2⌋, true, by push_cast; rfl, ?_⟩
    have h1 := Int.floor_le ((-x) * 10 ^ 5 + 1 / 2)
    have h2 := Int.lt_floor_add_one ((-x) * 10 ^ 5 + 1 / 2)
    rw [abs_le]
    push_cast
    constructor
    · rw [le_sub_iff_add_le, le_div_iff₀ (by norm_num)]
      linarith
    · rw [sub_le_iff_le_add, div_le_iff₀ (by norm_num)]
      linarith
  · rw [if_neg hneg]
    refine ⟨⌊x * 10 ^ 5 + 1 / 2⌋, false, rfl, ?_⟩
    have h1 := Int.floor_le (x * 10 ^ 5 + 1 / 2)
    have h2 := Int.lt_floor_add_one (x * 10 ^ 5 + 1 / 2)
    rw [abs_le]
    constructor
    · rw [le_sub_iff_add_le, le_div_iff₀ (by norm_num)]
      linarith
    · rw [sub_le_iff_le_add, div_le_iff₀ (by norm_num)]
      linarith

/-- A handler of the form `Number(e.target.value) || 0` never stores the negative zero. -/
theorem or_ne_negZero (v : F64) : F64.or v (fin 0) ≠ negZero := by
  unfold F64.or
  cases v with
  | fin q =>
    by_cases hq : q = 0 <;> simp [truthy, isNaN, isZero, hq]
  | _ => simp [truthy, isNaN, isZero]

/-! ## Claims about the program in binary64 -/

/-- C3: for every stored `dailyRiskPct` in `[0, 100]` the suggested trade count is a finite
number, an integer between 1 and 10, never `Infinity` or NaN; at `dailyRiskPct = 0` the
quotient `100 / 0` is `Infinity` and `Math.min` brings it back to `10`; for `dailyRiskPct` in
`(0, 100]` it is `min(floor(100 / dailyRiskPct), 10)`, the quotient being the binary64 one
(the grid point nearest to the exact quotient).  The stored value is never the negative
zero: the handler `Number(e.target.value) || 0` replaces it by `0`. -/
theorem suggestedMaxTrades_binary64 (s : Input) (p : ℚ) (hs : s.dailyRiskPct = fin p)
    (h0 : 0 ≤ p) (h100 : p ≤ 100) :
    (∃ k : ℤ, suggestedMaxTrades s = fin k ∧ 1 ≤ k ∧ k ≤ 10) ∧
    (p = 0 → suggestedMaxTrades s = fin 10) ∧
    (0 < p → suggestedMaxTrades s = fin ((min ⌊nearest (100 / p)⌋ 10 : ℤ) : ℚ)) ∧
    (∀ v : F64, dailyRiskPctOnChange v ≠ negZero) := by
  have hzero : p = 0 → suggestedMaxTrades s = fin 10 := by
    intro hp
    unfold suggestedMaxTrades
    rw [hs, hp, div_fin64_zero (by norm_num)]
    exact min2_posInf_fin64 10
  have hone : 0 < p → 1 ≤ nearest (100 / p) := by
    intro hp
    apply one_le_nearest
    rw [le_div_iff₀ hp]
    linarith
  have hpos : 0 < p → suggestedMaxTrades s = fin ((min ⌊nearest (100 / p)⌋ 10 : ℤ) : ℚ) := by
    intro hp
    have h1 := hone hp
    unfold suggestedMaxTrades
    rw [hs, div_fin64 _ hp.ne']
    unfold rnd
    by_cases hbig : (2 : ℚ) ^ 1024 ≤ nearest (100 / p)
    · rw [if_pos hbig]
      have hten : (10 : ℤ) ≤ ⌊nearest (100 / p)⌋ := by
        apply Int.le_floor.mpr
        have : ((10 : ℤ) : ℚ) ≤ (2 : ℚ) ^ 1024 := by norm_num
        linarith
      rw [min_eq_right hten]
      exact min2_posInf_fin64 10
    · rw [if_neg hbig, if_neg (by linarith [show (0 : ℚ) < (2 : ℚ) ^ 1024 by positivity]),
        if_neg (by linarith)]
      show min2 (fin ((⌊nearest (100 / p)⌋ : ℤ) : ℚ)) (fin 10) = _
      rw [min2_fin64]
      congr 1
      push_cast
      rfl
  refine ⟨?_, hzero, hpos, or_ne_negZero⟩
  rcases h0.eq_or_lt with hp | hp
  · exact ⟨10, by rw [hzero hp.symm]; norm_num, by norm_num, by norm_num⟩
  · refine ⟨min ⌊nearest (100 / p)⌋ 10, hpos hp, ?_, min_le_right _ _⟩
    have : (1 : ℤ) ≤ ⌊nearest (100 / p)⌋ := Int.le_floor.mpr (by exact_mod_cast hone hp)
    exact le_min this (by norm_num)

/-- C1, amended: whenever the denominator `pipSize * funds` evaluates to a zero, `slPips` is
`0` exactly when the guard `perTradeRisk > 0` fails, and when the guard passes the division is
carried out and `slPips` is `Infinity` or `-Infinity`.  The guard fails whenever `funds` is a
zero, so an empty account always gives `slPips = 0`.  The pip size handler never stores a
zero, so with `funds` not zero the denominator is zero only by underflow of the product. -/
theorem slPips_zero_denominator (s : Input) (hden : isZero (mul s.pipSize s.funds) = true) :
    (slPips s = fin 0 ↔ gt (perTradeRisk s) (fin 0) = false) ∧
    (gt (perTradeRisk s) (fin 0) = true → slPips s = posInf ∨ slPips s = negInf) ∧
    (isZero s.funds = true → slPips s = fin 0) ∧
    (∀ v : F64, isZero (pipSizeOnChange v) = false) := by
  have hinf : gt (perTradeRisk s) (fin 0) = true → slPips s = posInf ∨ slPips s = negInf := by
    intro h
    rw [slPips_of_guard_true h]
    exact div_zero_of_gt h hden
  refine ⟨⟨?_, slPips_of_guard_false⟩, hinf, ?_, ?_⟩
  · intro h0
    by_contra hg
    rw [Bool.not_eq_false] at hg
    rcases hinf hg with h | h <;> rw [h] at h0 <;> exact absurd h0 (by simp)
  · intro h
    exact slPips_of_guard_false (gt_zero_of_zeroOrNaN (perTradeRisk_zeroOrNaN h))
  · intro v
    apply or_isZero_false
    have h : nearest (1 / 10000) ≠ 0 := by
      apply nearest_ne_zero
      rw [abs_of_pos (by norm_num)]
      calc (2 : ℚ) ^ (-1075 : ℤ) ≤ (2 : ℚ) ^ (-14 : ℤ) :=
            zpow_le_zpow_right₀ (by norm_num) (by norm_num)
        _ < 1 / 10000 := by norm_num
    unfold ofDecimal
    rw [isZero_rnd_eq]
    exact decide_eq_false h

/-- C4, amended: if `entryPrice = 0` or `slPips` is a zero then `slPrice = 0` and
`tpPrice = 0`; otherwise, for a finite non-zero `slPips`, `slPrice` is
`+(entryPrice - slPips * pipSize).toFixed(5)`, and `tpPrice` is
`+(entryPrice + tpPips * pipSize).toFixed(5)` when the product `slPips * riskReward` does not
underflow to zero (`|slPips * riskReward| > 2^-1075`) and `0` when it does: the guard of
`tpPrice` tests `tpPips`, not `slPips`.  Below `10^21` in magnitude, `+(x).toFixed(5)` is the
binary64 number nearest to a multiple of `10^-5` at most `0.000005` away from `x`. -/
theorem prices_binary64 (s : Input) (e : ℚ) (he : s.entryPrice = fin e) :
    (e = 0 ∨ isZero (slPips s) = true → slPrice s = fin 0 ∧ tpPrice s = fin 0) ∧
    (∀ a r : ℚ, e ≠ 0 → slPips s = fin a → a ≠ 0 → s.riskReward = fin r →
      slPrice s = toFixed5 (sub (fin e) (mul (fin a) s.pipSize)) ∧
      ((2 : ℚ) ^ (-1075 : ℤ) < |a * r| →
        tpPrice s = toFixed5 (add (fin e) (mul (tpPips s) s.pipSize))) ∧
      (|a * r| ≤ (2 : ℚ) ^ (-1075 : ℤ) → tpPrice s = fin 0)) ∧
    (∀ x : ℚ, |x| < 10 ^ 21 → ∃ k : ℤ, ∃ b : Bool, toFixed5 (fin x) = rnd b ((k : ℚ) / 10 ^ 5) ∧
      |(k : ℚ) / 10 ^ 5 - x| ≤ 1 / (2 * 10 ^ 5)) := by
  refine ⟨?_, ?_, toFixed5_rounds64⟩
  · intro h
    rw [slPrice_eq64, tpPrice_eq64, he, truthy_fin64]
    rcases h with h | h
    · simp [h]
    · have h1 : truthy (slPips s) = false :=
        truthy_eq_false_of_zeroOrNaN (zeroOrNaN_of_isZero h)
      have h2 : truthy (tpPips s) = false :=
        truthy_eq_false_of_zeroOrNaN (tpPips_zeroOrNaN h)
      simp [h1, h2]
  · intro a r he0 ha ha0 hr
    have hts : truthy (slPips s) = true := by
      rw [ha, truthy_fin64]
      simpa using ha0
    refine ⟨?_, ?_, ?_⟩
    · rw [slPrice_eq64, he, truthy_fin64, ha]
      rw [ha] at hts
      simp [he0, hts]
    · intro hbig
      rw [tpPrice_eq64, he, truthy_fin64, truthy_tpPips ha hr]
      simp [he0, nearest_ne_zero hbig]
    · intro hsmall
      rw [tpPrice_eq64, he, truthy_fin64, truthy_tpPips ha hr]
      simp [nearest_eq_zero hsmall]

/-! ## What the handlers store -/

theorem or_fin_of_ne (q : ℚ) (d : F64) (hq : q ≠ 0) : F64.or (fin q) d = fin q := by
  simp [F64.or, truthy, isNaN, isZero, hq]

theorem max2_one_fin (q : ℚ) (hq : 1 < q) : max2 (fin 1) (fin q) = fin q := by
  unfold max2
  simp only [isNaN, gt_fin64, Bool.or_self, Bool.false_eq_true, if_false, decide_eq_true_eq]
  rw [if_neg (not_lt.mpr hq.le), if_pos hq]

theorem stored_funds (f n p r z e q : ℚ) (h : ofDecimal f = fin q) (hq : q ≠ 0) :
    (typed f n p r z e).funds = fin q := by
  show F64.or (ofDecimal f) (fin 0) = fin q
  rw [h, or_fin_of_ne q _ hq]

theorem stored_numTrades (f n p r z e q : ℚ) (h : ofDecimal n = fin q) (hq : 1 < q) :
    (typed f n p r z e).numTrades = fin q := by
  show max2 (fin 1) (F64.or (ofDecimal n) (fin 1)) = fin q
  rw [h, or_fin_of_ne q _ (by linarith), max2_one_fin q hq]

theorem stored_dailyRiskPct (f n p r z e q : ℚ) (h : ofDecimal p = fin q) (hq : q ≠ 0) :
    (typed f n p r z e).dailyRiskPct = fin q := by
  show F64.or (ofDecimal p) (fin 0) = fin q
  rw [h, or_fin_of_ne q _ hq]

theorem stored_riskReward (f n p r z e q : ℚ) (h : ofDecimal r = fin q) (hq : q ≠ 0) :
    (typed f n p r z e).riskReward = fin q := by
  show F64.or (ofDecimal r) (ofDecimal (1 / 10)) = fin q
  rw [h, or_fin_of_ne q _ hq]

theorem stored_pipSize (f n p r z e q : ℚ) (h : ofDecimal z = fin q) (hq : q ≠ 0) :
    (typed f n p r z e).pipSize = fin q := by
  show F64.or (ofDecimal z) (ofDecimal (1 / 10000)) = fin q
  rw [h, or_fin_of_ne q _ hq]

theorem stored_entryPrice (f n p r z e q : ℚ) (h : ofDecimal e = fin q) (hq : q ≠ 0) :
    (typed f n p r z e).entryPrice = fin q := by
  show F64.or (ofDecimal e) (fin 0) = fin q
  rw [h, or_fin_of_ne q _ hq]

/-- A rounding case of `slPrice`: with `numTrades = 32` (and `funds = 1000`, `dailyRiskPct = 2`,
`pipSize = 0.0001`, `entryPrice = 1.1`) the binary64 difference `entryPrice - slPips * pipSize`
lies just below `1.099375`, and `toFixed(5)` prints `1.09937`. -/
theorem slPrice_below_tie :
    slPrice (typed 1000 32 2 2 (1 / 10000) (11 / 10)) = ofDecimal (109937 / 100000) := by
  have hF : ofDecimal 1000 =
      fin 1000 :=
    ofDecimal_normal _ _ (9) 8796093022208000
      (by norm_num) (by norm_num) (by norm_num) (by norm_num) (by norm_num) (by norm_num)
      (by norm_num)
  have hsF : (typed 1000 32 2 2 (1 / 10000) (11 / 10)).funds =
      fin 1000 :=
    stored_funds _ _ _ _ _ _ _ hF (by norm_num)
  have hN : ofDecimal 32 =
      fin 32 :=
    ofDecimal_normal _ _ (5) 4503599627370496
      (by norm_num) (by norm_num) (by norm_num) (by norm_num) (by norm_num) (by norm_num)
      (by norm_num)
  have hsN : (typed 1000 32 2 2 (1 / 10000) (11 / 10)).numTrades =
      fin 32 :=
    stored_numTrades _ _ _ _ _ _ _ hN (by norm_num)
  have hP : ofDecimal 2 =
      fin 2 :=
    ofDecimal_normal _ _ (1) 4503599627370496
      (by norm_num) (by norm_num) (by norm_num) (by norm_num) (by norm_num) (by norm_num)
      (by norm_num)
  have hsP : (typed 1000 32 2 2 (1 / 10000) (11 / 10)).dailyRiskPct =
      fin 2 :=
    stored_dailyRiskPct _ _ _ _ _ _ _ hP (by norm_num)
  have hZ : ofDecimal (1 / 10000) =
      fin (7378697629483821 / 2 ^ 66) :=
    ofDecimal_normal _ _ (-14) 7378697629483821
      (by norm_num) (by norm_num) (by norm_num) (by norm_num) (by norm_num) (by norm_num)
      (by norm_num)
  have hsZ : (typed 1000 32 2 2 (1 / 10000) (11 / 10)).pipSize =
      fin (7378697629483821 / 2 ^ 66) :=
    stored_pipSize _ _ _ _ _ _ _ hZ (by norm_num)
  have hq : div (fin 2) (fin 100) =
      fin (5764607523034235 / 2 ^ 58) :=
    div_normal _ _ _ (-6) 5764607523034235
      (by norm_num) (by norm_num) (by norm_num) (by norm_num) (by norm_num) (by norm_num)
      (by norm_num) (by norm_num)
  have hd : mul (fin 1000)
      (fin (5764607523034235 / 2 ^ 58)) =
      fin 20 :=
    mul_normal _ _ _ (4) 5629499534213120
      (by norm_num) (by norm_num) (by norm_num) (by norm_num) (by norm_num) (by norm_num)
      (by norm_num)
  have hdra : dailyRiskAmount (typed 1000 32 2 2 (1 / 10000) (11 / 10)) =
      fin 20 := by
    unfold dailyRiskAmount
    rw [hsF, hsP, hq, hd]
  have ht : div (fin 20) (fin 32) =
      fin (5 / 2 ^ 3) :=
    div_normal _ _ _ (-1) 5629499534213120
      (by norm_num) (by norm_num) (by norm_num) (by norm_num) (by norm_num) (by norm_num)
      (by norm_num) (by norm_num)
  have hper : perTradeRisk (typed 1000 32 2 2 (1 / 10000) (11 / 10)) =
      fin (5 / 2 ^ 3) := by
    unfold perTradeRisk
    rw [hsN, gt_fin64, if_pos (by norm_num), hdra, ht]
  have hden : mul (fin (7378697629483821 / 2 ^ 66))
      (fin 1000) =
      fin (3602879701896397 / 2 ^ 55) :=
    mul_normal _ _ _ (-4) 7205759403792794
      (by norm_num) (by norm_num) (by norm_num) (by norm_num) (by norm_num) (by norm_num)
      (by norm_num)
  have hdenom : mul (typed 1000 32 2 2 (1 / 10000) (11 / 10)).pipSize
      (typed 1000 32 2 2 (1 / 10000) (11 / 10)).funds =
      fin (3602879701896397 / 2 ^ 55) := by
    rw [hsZ, hsF, hden]
  have hguard : gt (perTradeRisk (typed 1000 32 2 2 (1 / 10000) (11 / 10))) (fin 0) = true := by
    rw [hper, gt_fin64]
    norm_num
  have hquo : div (fin (5 / 2 ^ 3)) (fin (3602879701896397 / 2 ^ 55)) =
      fin (25 / 2 ^ 2) :=
    div_normal _ _ _ (2) 7036874417766400
      (by norm_num) (by norm_num) (by norm_num) (by norm_num) (by norm_num) (by norm_num)
      (by norm_num) (by norm_num)
  have hsl : slPips (typed 1000 32 2 2 (1 / 10000) (11 / 10)) =
      fin (25 / 2 ^ 2) := by
    unfold slPips
    rw [hguard, if_pos rfl, hper, hdenom, hquo]
  have hR : ofDecimal 2 =
      fin 2 :=
    ofDecimal_normal _ _ (1) 4503599627370496
      (by norm_num) (by norm_num) (by norm_num) (by norm_num) (by norm_num) (by norm_num)
      (by norm_num)
  have hE : ofDecimal (11 / 10) =
      fin (2476979795053773 / 2 ^ 51) :=
    ofDecimal_normal _ _ (0) 4953959590107546
      (by norm_num) (by norm_num) (by norm_num) (by norm_num) (by norm_num) (by norm_num)
      (by norm_num)
  have hentry : (typed 1000 32 2 2 (1 / 10000) (11 / 10)).entryPrice =
      fin (2476979795053773 / 2 ^ 51) :=
    stored_entryPrice _ _ _ _ _ _ _ hE (by norm_num)
  have hrr : (typed 1000 32 2 2 (1 / 10000) (11 / 10)).riskReward =
      fin 2 :=
    stored_riskReward _ _ _ _ _ _ _ hR (by norm_num)
  have hpip := hsZ
  have htpv : mul (fin (25 / 2 ^ 2))
      (fin 2) =
      fin (25 / 2 ^ 1) :=
    mul_normal _ _ _ (3) 7036874417766400
      (by norm_num) (by norm_num) (by norm_num) (by norm_num) (by norm_num) (by norm_num)
      (by norm_num)
  have htp : tpPips (typed 1000 32 2 2 (1 / 10000) (11 / 10)) =
      fin (25 / 2 ^ 1) := by
    unfold tpPips
    rw [hsl, hrr, htpv]
  have hm1 : mul (fin (25 / 2 ^ 2))
      (fin (7378697629483821 / 2 ^ 66)) =
      fin (5764607523034235 / 2 ^ 63) :=
    mul_normal _ _ _ (-11) 5764607523034235
      (by norm_num) (by norm_num) (by norm_num) (by norm_num) (by norm_num) (by norm_num)
      (by norm_num)
  have hs1 : sub (fin (2476979795053773 / 2 ^ 51)) (fin (5764607523034235 / 2 ^ 63)) =
      fin (4951144840340439 / 2 ^ 52) :=
    sub_normal _ _ _ (0) 4951144840340439
      (by norm_num) (by norm_num) (by norm_num) (by norm_num) (by norm_num) (by norm_num)
      (by norm_num)
  have hf1 : toFixed5 (fin (4951144840340439 / 2 ^ 52)) =
      fin (2475561161171151 / 2 ^ 51) :=
    toFixed5_normal _ _ (109937) (0) 4951122322342302
      (by norm_num) (by norm_num) (by norm_num) (by norm_num) (by norm_num) (by norm_num)
      (by norm_num) (by norm_num) (by norm_num) (by norm_num) (by norm_num)
  have ho1 : ofDecimal (109937 / 100000) =
      fin (2475561161171151 / 2 ^ 51) :=
    ofDecimal_normal _ _ (0) 4951122322342302
      (by norm_num) (by norm_num) (by norm_num) (by norm_num) (by norm_num) (by norm_num)
      (by norm_num)
  have htruthy : truthy (fin (25 / 2 ^ 2)) = true := by
    rw [truthy_fin64]
    norm_num
  rw [slPrice_eq64, hentry, truthy_fin64, hsl, htruthy, if_pos ⟨by norm_num, rfl⟩,
    hpip, hm1, hs1, hf1, ho1]

/-- A rounding case of `tpPrice`: with `numTrades = 4`, `dailyRiskPct = 2.5`,
`riskReward = 1.5`, `entryPrice = 2` (and `funds = 1000`, `pipSize = 0.0001`) the binary64 sum
`entryPrice + tpPips * pipSize` lies just below `2.009375`, and `toFixed(5)` prints
`2.00937`. -/
theorem tpPrice_below_tie :
    tpPrice (typed 1000 4 (25 / 10) (15 / 10) (1 / 10000) 2) = ofDecimal (200937 / 100000) := by
  have hF : ofDecimal 1000 =
      fin 1000 :=
    ofDecimal_normal _ _ (9) 8796093022208000
      (by norm_num) (by norm_num) (by norm_num) (by norm_num) (by norm_num) (by norm_num)
      (by norm_num)
  have hsF : (typed 1000 4 (25 / 10) (15 / 10) (1 / 10000) 2).funds =
      fin 1000 :=
    stored_funds _ _ _ _ _ _ _ hF (by norm_num)
  have hN : ofDecimal 4 =
      fin 4 :=
    ofDecimal_normal _ _ (2) 4503599627370496
      (by norm_num) (by norm_num) (by norm_num) (by norm_num) (by norm_num) (by norm_num)
      (by norm_num)
  have hsN : (typed 1000 4 (25 / 10) (15 / 10) (1 / 10000) 2).numTrades =
      fin 4 :=
    stored_numTrades _ _ _ _ _ _ _ hN (by norm_num)
  have hP : ofDecimal (25 / 10) =
      fin (5 / 2 ^ 1) :=
    ofDecimal_normal _ _ (1) 5629499534213120
      (by norm_num) (by norm_num) (by norm_num) (by norm_num) (by norm_num) (by norm_num)
      (by norm_num)
  have hsP : (typed 1000 4 (25 / 10) (15 / 10) (1 / 10000) 2).dailyRiskPct =
      fin (5 / 2 ^ 1) :=
    stored_dailyRiskPct _ _ _ _ _ _ _ hP (by norm_num)
  have hZ : ofDecimal (1 / 10000) =
      fin (7378697629483821 / 2 ^ 66) :=
    ofDecimal_normal _ _ (-14) 7378697629483821
      (by norm_num) (by norm_num) (by norm_num) (by norm_num) (by norm_num) (by norm_num)
      (by norm_num)
  have hsZ : (typed 1000 4 (25 / 10) (15 / 10) (1 / 10000) 2).pipSize =
      fin (7378697629483821 / 2 ^ 66) :=
    stored_pipSize _ _ _ _ _ _ _ hZ (by norm_num)
  have hq : div (fin (5 / 2 ^ 1)) (fin 100) =
      fin (3602879701896397 / 2 ^ 57) :=
    div_normal _ _ _ (-6) 7205759403792794
      (by norm_num) (by norm_num) (by norm_num) (by norm_num) (by norm_num) (by norm_num)
      (by norm_num) (by norm_num)
  have hd : mul (fin 1000)
      (fin (3602879701896397 / 2 ^ 57)) =
      fin 25 :=
    mul_normal _ _ _ (4) 7036874417766400
      (by norm_num) (by norm_num) (by norm_num) (by norm_num) (by norm_num) (by norm_num)
      (by norm_num)
  have hdra : dailyRiskAmount (typed 1000 4 (25 / 10) (15 / 10) (1 / 10000) 2) =
      fin 25 := by
    unfold dailyRiskAmount
    rw [hsF, hsP, hq, hd]
  have ht : div (fin 25) (fin 4) =
      fin (25 / 2 ^ 2) :=
    div_normal _ _ _ (2) 7036874417766400
      (by norm_num) (by norm_num) (by norm_num) (by norm_num) (by norm_num) (by norm_num)
      (by norm_num) (by norm_num)
  have hper : perTradeRisk (typed 1000 4 (25 / 10) (15 / 10) (1 / 10000) 2) =
      fin (25 / 2 ^ 2) := by
    unfold perTradeRisk
    rw [hsN, gt_fin64, if_pos (by norm_num), hdra, ht]
  have hden : mul (fin (7378697629483821 / 2 ^ 66))
      (fin 1000) =
      fin (3602879701896397 / 2 ^ 55) :=
    mul_normal _ _ _ (-4) 7205759403792794
      (by norm_num) (by norm_num) (by norm_num) (by norm_num) (by norm_num) (by norm_num)
      (by norm_num)
  have hdenom : mul (typed 1000 4 (25 / 10) (15 / 10) (1 / 10000) 2).pipSize
      (typed 1000 4 (25 / 10) (15 / 10) (1 / 10000) 2).funds =
      fin (3602879701896397 / 2 ^ 55) := by
    rw [hsZ, hsF, hden]
  have hguard : gt (perTradeRisk (typed 1000 4 (25 / 10) (15 / 10) (1 / 10000) 2)) (fin 0) = true := by
    rw [hper, gt_fin64]
    norm_num
  have hquo : div (fin (25 / 2 ^ 2)) (fin (3602879701896397 / 2 ^ 55)) =
      fin (125 / 2 ^ 1) :=
    div_normal _ _ _ (5) 8796093022208000
      (by norm_num) (by norm_num) (by norm_num) (by norm_num) (by norm_num) (by norm_num)
      (by norm_num) (by norm_num)
  have hsl : slPips (typed 1000 4 (25 / 10) (15 / 10) (1 / 10000) 2) =
      fin (125 / 2 ^ 1) := by
    unfold slPips
    rw [hguard, if_pos rfl, hper, hdenom, hquo]
  have hR : ofDecimal (15 / 10) =
      fin (3 / 2 ^ 1) :=
    ofDecimal_normal _ _ (0) 6755399441055744
      (by norm_num) (by norm_num) (by norm_num) (by norm_num) (by norm_num) (by norm_num)
      (by norm_num)
  have hE : ofDecimal 2 =
      fin 2 :=
    ofDecimal_normal _ _ (1) 4503599627370496
      (by norm_num) (by norm_num) (by norm_num) (by norm_num) (by norm_num) (by norm_num)
      (by norm_num)
  have hentry : (typed 1000 4 (25 / 10) (15 / 10) (1 / 10000) 2).entryPrice =
      fin 2 :=
    stored_entryPrice _ _ _ _ _ _ _ hE (by norm_num)
  have hrr : (typed 1000 4 (25 / 10) (15 / 10) (1 / 10000) 2).riskReward =
      fin (3 / 2 ^ 1) :=
    stored_riskReward _ _ _ _ _ _ _ hR (by norm_num)
  have hpip := hsZ
  have htpv : mul (fin (125 / 2 ^ 1))
      (fin (3 / 2 ^ 1)) =
      fin (375 / 2 ^ 2) :=
    mul_normal _ _ _ (6) 6597069766656000
      (by norm_num) (by norm_num) (by norm_num) (by norm_num) (by norm_num) (by norm_num)
      (by norm_num)
  have htp : tpPips (typed 1000 4 (25 / 10) (15 / 10) (1 / 10000) 2) =
      fin (375 / 2 ^ 2) := by
    unfold tpPips
    rw [hsl, hrr, htpv]
  have hm2 : mul (fin (375 / 2 ^ 2))
      (fin (7378697629483821 / 2 ^ 66)) =
      fin (5404319552844595 / 2 ^ 59) :=
    mul_normal _ _ _ (-7) 5404319552844595
      (by norm_num) (by norm_num) (by norm_num) (by norm_num) (by norm_num) (by norm_num)
      (by norm_num)
  have ha2 : add (fin 2) (fin (5404319552844595 / 2 ^ 59)) =
      fin (4524710250623795 / 2 ^ 51) :=
    add_normal _ _ _ (1) 4524710250623795
      (by norm_num) (by norm_num) (by norm_num) (by norm_num) (by norm_num) (by norm_num)
      (by norm_num)
  have hf2 : toFixed5 (fin (4524710250623795 / 2 ^ 51)) =
      fin (4524698991624727 / 2 ^ 51) :=
    toFixed5_normal _ _ (200937) (1) 4524698991624727
      (by norm_num) (by norm_num) (by norm_num) (by norm_num) (by norm_num) (by norm_num)
      (by norm_num) (by norm_num) (by norm_num) (by norm_num) (by norm_num)
  have ho2 : ofDecimal (200937 / 100000) =
      fin (4524698991624727 / 2 ^ 51) :=
    ofDecimal_normal _ _ (1) 4524698991624727
      (by norm_num) (by norm_num) (by norm_num) (by norm_num) (by norm_num) (by norm_num)
      (by norm_num)
  have htruthy : truthy (fin (375 / 2 ^ 2)) = true := by
    rw [truthy_fin64]
    norm_num
  rw [tpPrice_eq64, hentry, truthy_fin64, htp, htruthy, if_pos ⟨by norm_num, rfl⟩,
    hpip, hm2, ha2, hf2, ho2]

/-- The statement of C3 at `dailyRiskPct = 33.333333333333336`, a number of `(0, 100]` where
rounding shows: the binary64 quotient `100 / dailyRiskPct` is exactly `3` (the exact quotient
lies just below `3`), and the suggested trade count is `3`. -/
theorem suggestedMaxTrades_binary64_witness :
    suggestedMaxTrades (typed 1000 5 (33333333333333336 / 10 ^ 15) 2 (1 / 10000) 0) = fin 3 := by
  have hP : ofDecimal (33333333333333336 / 10 ^ 15) =
      fin (4691249611844267 / 2 ^ 47) :=
    ofDecimal_normal _ _ (5) 4691249611844267
      (by norm_num) (by norm_num) (by norm_num) (by norm_num) (by norm_num) (by norm_num)
      (by norm_num)
  have hn : nearest (100 / (4691249611844267 / 2 ^ 47)) = 3 :=
    nearest_normal _ _ (1) 6755399441055744
      (by norm_num) (by norm_num) (by norm_num) (by norm_num) (by norm_num) (by norm_num)
  have h := (suggestedMaxTrades_binary64 (typed 1000 5 (33333333333333336 / 10 ^ 15) 2 (1 / 10000) 0)
    (4691249611844267 / 2 ^ 47) (stored_dailyRiskPct _ _ _ _ _ _ _ hP (by norm_num)) (by norm_num)
    (by norm_num)).2.2.1
    (by norm_num)
  rw [h, hn]
  norm_num

/-- C1, as stated, fails: with `funds = 1e-200` and `pipSize = 1e-200` typed into the form
(and the defaults elsewhere) the denominator `pipSize * funds` underflows to `0` while
`perTradeRisk` is positive, so the guard passes, the division is carried out and `slPips` is
`Infinity`, not `0`. -/
theorem zero_denominator_slPips_infinite :
    mul (typed (1 / 10 ^ 200) 5 2 2 (1 / 10 ^ 200) 0).pipSize
      (typed (1 / 10 ^ 200) 5 2 2 (1 / 10 ^ 200) 0).funds = fin 0 ∧
    slPips (typed (1 / 10 ^ 200) 5 2 2 (1 / 10 ^ 200) 0) = posInf ∧
    slPips (typed (1 / 10 ^ 200) 5 2 2 (1 / 10 ^ 200) 0) ≠ fin 0 := by
  have hF : ofDecimal (1 / 10 ^ 200) =
      fin (1723641332219371 / 2 ^ 715) :=
    ofDecimal_normal _ _ (-665) 6894565328877484
      (by norm_num) (by norm_num) (by norm_num) (by norm_num) (by norm_num) (by norm_num)
      (by norm_num)
  have hsF : (typed (1 / 10 ^ 200) 5 2 2 (1 / 10 ^ 200) 0).funds =
      fin (1723641332219371 / 2 ^ 715) :=
    stored_funds _ _ _ _ _ _ _ hF (by norm_num)
  have hN : ofDecimal 5 =
      fin 5 :=
    ofDecimal_normal _ _ (2) 5629499534213120
      (by norm_num) (by norm_num) (by norm_num) (by norm_num) (by norm_num) (by norm_num)
      (by norm_num)
  have hsN : (typed (1 / 10 ^ 200) 5 2 2 (1 / 10 ^ 200) 0).numTrades =
      fin 5 :=
    stored_numTrades _ _ _ _ _ _ _ hN (by norm_num)
  have hP : ofDecimal 2 =
      fin 2 :=
    ofDecimal_normal _ _ (1) 4503599627370496
      (by norm_num) (by norm_num) (by norm_num) (by norm_num) (by norm_num) (by norm_num)
      (by norm_num)
  have hsP : (typed (1 / 10 ^ 200) 5 2 2 (1 / 10 ^ 200) 0).dailyRiskPct =
      fin 2 :=
    stored_dailyRiskPct _ _ _ _ _ _ _ hP (by norm_num)
  have hZ : ofDecimal (1 / 10 ^ 200) =
      fin (1723641332219371 / 2 ^ 715) :=
    ofDecimal_normal _ _ (-665) 6894565328877484
      (by norm_num) (by norm_num) (by norm_num) (by norm_num) (by norm_num) (by norm_num)
      (by norm_num)
  have hsZ : (typed (1 / 10 ^ 200) 5 2 2 (1 / 10 ^ 200) 0).pipSize =
      fin (1723641332219371 / 2 ^ 715) :=
    stored_pipSize _ _ _ _ _ _ _ hZ (by norm_num)
  have hq : div (fin 2) (fin 100) =
      fin (5764607523034235 / 2 ^ 58) :=
    div_normal _ _ _ (-6) 5764607523034235
      (by norm_num) (by norm_num) (by norm_num) (by norm_num) (by norm_num) (by norm_num)
      (by norm_num) (by norm_num)
  have hd : mul (fin (1723641332219371 / 2 ^ 715))
      (fin (5764607523034235 / 2 ^ 58)) =
      fin (2206260905240795 / 2 ^ 721) :=
    mul_normal _ _ _ (-671) 8825043620963180
      (by norm_num) (by norm_num) (by norm_num) (by norm_num) (by norm_num) (by norm_num)
      (by norm_num)
  have hdra : dailyRiskAmount (typed (1 / 10 ^ 200) 5 2 2 (1 / 10 ^ 200) 0) =
      fin (2206260905240795 / 2 ^ 721) := by
    unfold dailyRiskAmount
    rw [hsF, hsP, hq, hd]
  have ht : div (fin (2206260905240795 / 2 ^ 721)) (fin 5) =
      fin (441252181048159 / 2 ^ 721) :=
    div_normal _ _ _ (-673) 7060034896770544
      (by norm_num) (by norm_num) (by norm_num) (by norm_num) (by norm_num) (by norm_num)
      (by norm_num) (by norm_num)
  have hper : perTradeRisk (typed (1 / 10 ^ 200) 5 2 2 (1 / 10 ^ 200) 0) =
      fin (441252181048159 / 2 ^ 721) := by
    unfold perTradeRisk
    rw [hsN, gt_fin64, if_pos (by norm_num), hdra, ht]
  have hden : mul (fin (1723641332219371 / 2 ^ 715)) (fin (1723641332219371 / 2 ^ 715)) = fin 0 :=
    mul_underflow _ _ (by norm_num) (by norm_num) (by norm_num)
  have hdenom : mul (typed (1 / 10 ^ 200) 5 2 2 (1 / 10 ^ 200) 0).pipSize
      (typed (1 / 10 ^ 200) 5 2 2 (1 / 10 ^ 200) 0).funds =
      fin 0 := by
    rw [hsZ, hsF, hden]
  have hguard : gt (perTradeRisk (typed (1 / 10 ^ 200) 5 2 2 (1 / 10 ^ 200) 0)) (fin 0) = true := by
    rw [hper, gt_fin64]
    norm_num
  have hsl : slPips (typed (1 / 10 ^ 200) 5 2 2 (1 / 10 ^ 200) 0) = posInf := by
    unfold slPips
    rw [hguard, if_pos rfl, hper, hdenom]
    exact div_fin64_zero (by norm_num)
  refine ⟨hdenom, hsl, ?_⟩
  rw [hsl]
  simp

/-- The statement of C1 at `funds = 1e-320` with the default pip size `0.0001`: the
denominator underflows to `0`, the guard `perTradeRisk > 0` passes, and `slPips` is an
infinity. -/
theorem slPips_zero_denominator_witness :
    slPips (typed (1 / 10 ^ 320) 5 2 2 (1 / 10000) 0) = posInf ∨
    slPips (typed (1 / 10 ^ 320) 5 2 2 (1 / 10000) 0) = negInf := by
  have hF : ofDecimal (1 / 10 ^ 320) =
      fin (253 / 2 ^ 1071) :=
    ofDecimal_subnormal _ _ 2024
      (by norm_num) (by norm_num) (by norm_num) (by norm_num) (by norm_num) (by norm_num)
  have hsF : (typed (1 / 10 ^ 320) 5 2 2 (1 / 10000) 0).funds =
      fin (253 / 2 ^ 1071) :=
    stored_funds _ _ _ _ _ _ _ hF (by norm_num)
  have hN : ofDecimal 5 =
      fin 5 :=
    ofDecimal_normal _ _ (2) 5629499534213120
      (by norm_num) (by norm_num) (by norm_num) (by norm_num) (by norm_num) (by norm_num)
      (by norm_num)
  have hsN : (typed (1 / 10 ^ 320) 5 2 2 (1 / 10000) 0).numTrades =
      fin 5 :=
    stored_numTrades _ _ _ _ _ _ _ hN (by norm_num)
  have hP : ofDecimal 2 =
      fin 2 :=
    ofDecimal_normal _ _ (1) 4503599627370496
      (by norm_num) (by norm_num) (by norm_num) (by norm_num) (by norm_num) (by norm_num)
      (by norm_num)
  have hsP : (typed (1 / 10 ^ 320) 5 2 2 (1 / 10000) 0).dailyRiskPct =
      fin 2 :=
    stored_dailyRiskPct _ _ _ _ _ _ _ hP (by norm_num)
  have hZ : ofDecimal (1 / 10000) =
      fin (7378697629483821 / 2 ^ 66) :=
    ofDecimal_normal _ _ (-14) 7378697629483821
      (by norm_num) (by norm_num) (by norm_num) (by norm_num) (by norm_num) (by norm_num)
      (by norm_num)
  have hsZ : (typed (1 / 10 ^ 320) 5 2 2 (1 / 10000) 0).pipSize =
      fin (7378697629483821 / 2 ^ 66) :=
    stored_pipSize _ _ _ _ _ _ _ hZ (by norm_num)
  have hq : div (fin 2) (fin 100) =
      fin (5764607523034235 / 2 ^ 58) :=
    div_normal _ _ _ (-6) 5764607523034235
      (by norm_num) (by norm_num) (by norm_num) (by norm_num) (by norm_num) (by norm_num)
      (by norm_num) (by norm_num)
  have hd : mul (fin (253 / 2 ^ 1071))
      (fin (5764607523034235 / 2 ^ 58)) =
      fin (5 / 2 ^ 1071) :=
    mul_subnormal _ _ _ 40
      (by norm_num) (by norm_num) (by norm_num) (by norm_num) (by norm_num) (by norm_num)
  have hdra : dailyRiskAmount (typed (1 / 10 ^ 320) 5 2 2 (1 / 10000) 0) =
      fin (5 / 2 ^ 1071) := by
    unfold dailyRiskAmount
    rw [hsF, hsP, hq, hd]
  have ht : div (fin (5 / 2 ^ 1071)) (fin 5) =
      fin (1 / 2 ^ 1071) :=
    div_subnormal _ _ _ 8
      (by norm_num) (by norm_num) (by norm_num) (by norm_num) (by norm_num) (by norm_num)
      (by norm_num)
  have hper : perTradeRisk (typed (1 / 10 ^ 320) 5 2 2 (1 / 10000) 0) =
      fin (1 / 2 ^ 1071) := by
    unfold perTradeRisk
    rw [hsN, gt_fin64, if_pos (by norm_num), hdra, ht]
  have hden : mul (fin (7378697629483821 / 2 ^ 66)) (fin (253 / 2 ^ 1071)) = fin 0 :=
    mul_underflow _ _ (by norm_num) (by norm_num) (by norm_num)
  have hdenom : mul (typed (1 / 10 ^ 320) 5 2 2 (1 / 10000) 0).pipSize
      (typed (1 / 10 ^ 320) 5 2 2 (1 / 10000) 0).funds =
      fin 0 := by
    rw [hsZ, hsF, hden]
  have hguard : gt (perTradeRisk (typed (1 / 10 ^ 320) 5 2 2 (1 / 10000) 0)) (fin 0) = true := by
    rw [hper, gt_fin64]
    norm_num
  have hsl : slPips (typed (1 / 10 ^ 320) 5 2 2 (1 / 10000) 0) = posInf := by
    unfold slPips
    rw [hguard, if_pos rfl, hper, hdenom]
    exact div_fin64_zero (by norm_num)
  exact (slPips_zero_denominator (typed (1 / 10 ^ 320) 5 2 2 (1 / 10000) 0)
    (by rw [hdenom]; simp [isZero])).2.1 hguard

/-- C4, as stated, fails, at an input of the documented ranges: `funds = 1000`,
`numTrades = 5`, `dailyRiskPct = 5e-322`, `riskReward = 0.1`, `pipSize = 0.1`,
`entryPrice = 1.1`.  There `slPips` is `2^-1073`, not `0`, and `entryPrice` is not `0`, but
`tpPips = slPips * riskReward` underflows to `0`, so the guard of `tpPrice`, which tests
`tpPips`, fails and `tpPrice` is `0`, not `entryPrice + tpPips * pipSize` rounded to five
places (the number `1.1`). -/
theorem tpPrice_zero_slPips_nonzero :
    (typed 1000 5 (5 / 10 ^ 322) (1 / 10) (1 / 10) (11 / 10)).entryPrice =
      fin (2476979795053773 / 2 ^ 51) ∧
    slPips (typed 1000 5 (5 / 10 ^ 322) (1 / 10) (1 / 10) (11 / 10)) =
      fin (1 / 2 ^ 1073) ∧
    ((1 / 2 ^ 1073) : ℚ) ≠ 0 ∧
    tpPrice (typed 1000 5 (5 / 10 ^ 322) (1 / 10) (1 / 10) (11 / 10)) = fin 0 ∧
    toFixed5 (add (typed 1000 5 (5 / 10 ^ 322) (1 / 10) (1 / 10) (11 / 10)).entryPrice
      (mul (tpPips (typed 1000 5 (5 / 10 ^ 322) (1 / 10) (1 / 10) (11 / 10)))
        (typed 1000 5 (5 / 10 ^ 322) (1 / 10) (1 / 10) (11 / 10)).pipSize)) =
      fin (2476979795053773 / 2 ^ 51) ∧
    tpPrice (typed 1000 5 (5 / 10 ^ 322) (1 / 10) (1 / 10) (11 / 10)) ≠
      toFixed5 (add (typed 1000 5 (5 / 10 ^ 322) (1 / 10) (1 / 10) (11 / 10)).entryPrice
        (mul (tpPips (typed 1000 5 (5 / 10 ^ 322) (1 / 10) (1 / 10) (11 / 10)))
          (typed 1000 5 (5 / 10 ^ 322) (1 / 10) (1 / 10) (11 / 10)).pipSize)) := by
  have hF : ofDecimal 1000 =
      fin 1000 :=
    ofDecimal_normal _ _ (9) 8796093022208000
      (by norm_num) (by norm_num) (by norm_num) (by norm_num) (by norm_num) (by norm_num)
      (by norm_num)
  have hsF : (typed 1000 5 (5 / 10 ^ 322) (1 / 10) (1 / 10) (11 / 10)).funds =
      fin 1000 :=
    stored_funds _ _ _ _ _ _ _ hF (by norm_num)
  have hN : ofDecimal 5 =
      fin 5 :=
    ofDecimal_normal _ _ (2) 5629499534213120
      (by norm_num) (by norm_num) (by norm_num) (by norm_num) (by norm_num) (by norm_num)
      (by norm_num)
  have hsN : (typed 1000 5 (5 / 10 ^ 322) (1 / 10) (1 / 10) (11 / 10)).numTrades =
      fin 5 :=
    stored_numTrades _ _ _ _ _ _ _ hN (by norm_num)
  have hP : ofDecimal (5 / 10 ^ 322) =
      fin (101 / 2 ^ 1074) :=
    ofDecimal_subnormal _ _ 101
      (by norm_num) (by norm_num) (by norm_num) (by norm_num) (by norm_num) (by norm_num)
  have hsP : (typed 1000 5 (5 / 10 ^ 322) (1 / 10) (1 / 10) (11 / 10)).dailyRiskPct =
      fin (101 / 2 ^ 1074) :=
    stored_dailyRiskPct _ _ _ _ _ _ _ hP (by norm_num)
  have hZ : ofDecimal (1 / 10) =
      fin (3602879701896397 / 2 ^ 55) :=
    ofDecimal_normal _ _ (-4) 7205759403792794
      (by norm_num) (by norm_num) (by norm_num) (by norm_num) (by norm_num) (by norm_num)
      (by norm_num)
  have hsZ : (typed 1000 5 (5 / 10 ^ 322) (1 / 10) (1 / 10) (11 / 10)).pipSize =
      fin (3602879701896397 / 2 ^ 55) :=
    stored_pipSize _ _ _ _ _ _ _ hZ (by norm_num)
  have hq : div (fin (101 / 2 ^ 1074)) (fin 100) =
      fin (1 / 2 ^ 1074) :=
    div_subnormal _ _ _ 1
      (by norm_num) (by norm_num) (by norm_num) (by norm_num) (by norm_num) (by norm_num)
      (by norm_num)
  have hd : mul (fin 1000)
      (fin (1 / 2 ^ 1074)) =
      fin (125 / 2 ^ 1071) :=
    mul_subnormal _ _ _ 1000
      (by norm_num) (by norm_num) (by norm_num) (by norm_num) (by norm_num) (by norm_num)
  have hdra : dailyRiskAmount (typed 1000 5 (5 / 10 ^ 322) (1 / 10) (1 / 10) (11 / 10)) =
      fin (125 / 2 ^ 1071) := by
    unfold dailyRiskAmount
    rw [hsF, hsP, hq, hd]
  have ht : div (fin (125 / 2 ^ 1071)) (fin 5) =
      fin (25 / 2 ^ 1071) :=
    div_subnormal _ _ _ 200
      (by norm_num) (by norm_num) (by norm_num) (by norm_num) (by norm_num) (by norm_num)
      (by norm_num)
  have hper : perTradeRisk (typed 1000 5 (5 / 10 ^ 322) (1 / 10) (1 / 10) (11 / 10)) =
      fin (25 / 2 ^ 1071) := by
    unfold perTradeRisk
    rw [hsN, gt_fin64, if_pos (by norm_num), hdra, ht]
  have hden : mul (fin (3602879701896397 / 2 ^ 55))
      (fin 1000) =
      fin 100 :=
    mul_normal _ _ _ (6) 7036874417766400
      (by norm_num) (by norm_num) (by norm_num) (by norm_num) (by norm_num) (by norm_num)
      (by norm_num)
  have hdenom : mul (typed 1000 5 (5 / 10 ^ 322) (1 / 10) (1 / 10) (11 / 10)).pipSize
      (typed 1000 5 (5 / 10 ^ 322) (1 / 10) (1 / 10) (11 / 10)).funds =
      fin 100 := by
    rw [hsZ, hsF, hden]
  have hguard : gt (perTradeRisk (typed 1000 5 (5 / 10 ^ 322) (1 / 10) (1 / 10) (11 / 10))) (fin 0) = true := by
    rw [hper, gt_fin64]
    norm_num
  have hquo : div (fin (25 / 2 ^ 1071)) (fin 100) =
      fin (1 / 2 ^ 1073) :=
    div_subnormal _ _ _ 2
      (by norm_num) (by norm_num) (by norm_num) (by norm_num) (by norm_num) (by norm_num)
      (by norm_num)
  have hsl : slPips (typed 1000 5 (5 / 10 ^ 322) (1 / 10) (1 / 10) (11 / 10)) =
      fin (1 / 2 ^ 1073) := by
    unfold slPips
    rw [hguard, if_pos rfl, hper, hdenom, hquo]
  have hR : ofDecimal (1 / 10) =
      fin (3602879701896397 / 2 ^ 55) :=
    ofDecimal_normal _ _ (-4) 7205759403792794
      (by norm_num) (by norm_num) (by norm_num) (by norm_num) (by norm_num) (by norm_num)
      (by norm_num)
  have hE : ofDecimal (11 / 10) =
      fin (2476979795053773 / 2 ^ 51) :=
    ofDecimal_normal _ _ (0) 4953959590107546
      (by norm_num) (by norm_num) (by norm_num) (by norm_num) (by norm_num) (by norm_num)
      (by norm_num)
  have hentry : (typed 1000 5 (5 / 10 ^ 322) (1 / 10) (1 / 10) (11 / 10)).entryPrice =
      fin (2476979795053773 / 2 ^ 51) :=
    stored_entryPrice _ _ _ _ _ _ _ hE (by norm_num)
  have hrr : (typed 1000 5 (5 / 10 ^ 322) (1 / 10) (1 / 10) (11 / 10)).riskReward =
      fin (3602879701896397 / 2 ^ 55) :=
    stored_riskReward _ _ _ _ _ _ _ hR (by norm_num)
  have hpip := hsZ
  have htpv : mul (fin (1 / 2 ^ 1073)) (fin (3602879701896397 / 2 ^ 55)) = fin 0 :=
    mul_underflow _ _ (by norm_num) (by norm_num) (by norm_num)
  have htp : tpPips (typed 1000 5 (5 / 10 ^ 322) (1 / 10) (1 / 10) (11 / 10)) =
      fin 0 := by
    unfold tpPips
    rw [hsl, hrr, htpv]
  have hm2 : mul (fin 0) (fin (3602879701896397 / 2 ^ 55)) = fin 0 :=
    mul_underflow _ _ (by norm_num) (by norm_num) (by norm_num)
  have ha2 : add (fin (2476979795053773 / 2 ^ 51)) (fin 0) =
      fin (2476979795053773 / 2 ^ 51) :=
    add_normal _ _ _ (0) 4953959590107546
      (by norm_num) (by norm_num) (by norm_num) (by norm_num) (by norm_num) (by norm_num)
      (by norm_num)
  have hf2 : toFixed5 (fin (2476979795053773 / 2 ^ 51)) =
      fin (2476979795053773 / 2 ^ 51) :=
    toFixed5_normal _ _ (110000) (0) 4953959590107546
      (by norm_num) (by norm_num) (by norm_num) (by norm_num) (by norm_num) (by norm_num)
      (by norm_num) (by norm_num) (by norm_num) (by norm_num) (by norm_num)
  have hprice : tpPrice (typed 1000 5 (5 / 10 ^ 322) (1 / 10) (1 / 10) (11 / 10)) = fin 0 := by
    rw [tpPrice_eq64, htp, truthy_fin64]
    simp
  have hformula : toFixed5 (add (typed 1000 5 (5 / 10 ^ 322) (1 / 10) (1 / 10) (11 / 10)).entryPrice
      (mul (tpPips (typed 1000 5 (5 / 10 ^ 322) (1 / 10) (1 / 10) (11 / 10)))
        (typed 1000 5 (5 / 10 ^ 322) (1 / 10) (1 / 10) (11 / 10)).pipSize)) =
      fin (2476979795053773 / 2 ^ 51) := by
    rw [hentry, htp, hpip, hm2, ha2, hf2]
  refine ⟨hentry, hsl, by norm_num, hprice, hformula, ?_⟩
  rw [hprice, hformula]
  norm_num

/-- The statement of C4 at `funds = 1000`, `numTrades = 5`, `dailyRiskPct = 2`,
`riskReward = 2`, `pipSize = 0.0001`, `entryPrice = 1.1`: `slPips = 40`, `slPrice` is the
number `1.096` and `tpPrice` the number `1.108`. -/
theorem prices_binary64_witness :
    slPrice (typed 1000 5 2 2 (1 / 10000) (11 / 10)) = ofDecimal (1096 / 1000) ∧
    tpPrice (typed 1000 5 2 2 (1 / 10000) (11 / 10)) = ofDecimal (1108 / 1000) := by
  have hF : ofDecimal 1000 =
      fin 1000 :=
    ofDecimal_normal _ _ (9) 8796093022208000
      (by norm_num) (by norm_num) (by norm_num) (by norm_num) (by norm_num) (by norm_num)
      (by norm_num)
  have hsF : (typed 1000 5 2 2 (1 / 10000) (11 / 10)).funds =
      fin 1000 :=
    stored_funds _ _ _ _ _ _ _ hF (by norm_num)
  have hN : ofDecimal 5 =
      fin 5 :=
    ofDecimal_normal _ _ (2) 5629499534213120
      (by norm_num) (by norm_num) (by norm_num) (by norm_num) (by norm_num) (by norm_num)
      (by norm_num)
  have hsN : (typed 1000 5 2 2 (1 / 10000) (11 / 10)).numTrades =
      fin 5 :=
    stored_numTrades _ _ _ _ _ _ _ hN (by norm_num)
  have hP : ofDecimal 2 =
      fin 2 :=
    ofDecimal_normal _ _ (1) 4503599627370496
      (by norm_num) (by norm_num) (by norm_num) (by norm_num) (by norm_num) (by norm_num)
      (by norm_num)
  have hsP : (typed 1000 5 2 2 (1 / 10000) (11 / 10)).dailyRiskPct =
      fin 2 :=
    stored_dailyRiskPct _ _ _ _ _ _ _ hP (by norm_num)
  have hZ : ofDecimal (1 / 10000) =
      fin (7378697629483821 / 2 ^ 66) :=
    ofDecimal_normal _ _ (-14) 7378697629483821
      (by norm_num) (by norm_num) (by norm_num) (by norm_num) (by norm_num) (by norm_num)
      (by norm_num)
  have hsZ : (typed 1000 5 2 2 (1 / 10000) (11 / 10)).pipSize =
      fin (7378697629483821 / 2 ^ 66) :=
    stored_pipSize _ _ _ _ _ _ _ hZ (by norm_num)
  have hq : div (fin 2) (fin 100) =
      fin (5764607523034235 / 2 ^ 58) :=
    div_normal _ _ _ (-6) 5764607523034235
      (by norm_num) (by norm_num) (by norm_num) (by norm_num) (by norm_num) (by norm_num)
      (by norm_num) (by norm_num)
  have hd : mul (fin 1000)
      (fin (5764607523034235 / 2 ^ 58)) =
      fin 20 :=
    mul_normal _ _ _ (4) 5629499534213120
      (by norm_num) (by norm_num) (by norm_num) (by norm_num) (by norm_num) (by norm_num)
      (by norm_num)
  have hdra : dailyRiskAmount (typed 1000 5 2 2 (1 / 10000) (11 / 10)) =
      fin 20 := by
    unfold dailyRiskAmount
    rw [hsF, hsP, hq, hd]
  have ht : div (fin 20) (fin 5) =
      fin 4 :=
    div_normal _ _ _ (2) 4503599627370496
      (by norm_num) (by norm_num) (by norm_num) (by norm_num) (by norm_num) (by norm_num)
      (by norm_num) (by norm_num)
  have hper : perTradeRisk (typed 1000 5 2 2 (1 / 10000) (11 / 10)) =
      fin 4 := by
    unfold perTradeRisk
    rw [hsN, gt_fin64, if_pos (by norm_num), hdra, ht]
  have hden : mul (fin (7378697629483821 / 2 ^ 66))
      (fin 1000) =
      fin (3602879701896397 / 2 ^ 55) :=
    mul_normal _ _ _ (-4) 7205759403792794
      (by norm_num) (by norm_num) (by norm_num) (by norm_num) (by norm_num) (by norm_num)
      (by norm_num)
  have hdenom : mul (typed 1000 5 2 2 (1 / 10000) (11 / 10)).pipSize
      (typed 1000 5 2 2 (1 / 10000) (11 / 10)).funds =
      fin (3602879701896397 / 2 ^ 55) := by
    rw [hsZ, hsF, hden]
  have hguard : gt (perTradeRisk (typed 1000 5 2 2 (1 / 10000) (11 / 10))) (fin 0) = true := by
    rw [hper, gt_fin64]
    norm_num
  have hquo : div (fin 4) (fin (3602879701896397 / 2 ^ 55)) =
      fin 40 :=
    div_normal _ _ _ (5) 5629499534213120
      (by norm_num) (by norm_num) (by norm_num) (by norm_num) (by norm_num) (by norm_num)
      (by norm_num) (by norm_num)
  have hsl : slPips (typed 1000 5 2 2 (1 / 10000) (11 / 10)) =
      fin 40 := by
    unfold slPips
    rw [hguard, if_pos rfl, hper, hdenom, hquo]
  have hR : ofDecimal 2 =
      fin 2 :=
    ofDecimal_normal _ _ (1) 4503599627370496
      (by norm_num) (by norm_num) (by norm_num) (by norm_num) (by norm_num) (by norm_num)
      (by norm_num)
  have hE : ofDecimal (11 / 10) =
      fin (2476979795053773 / 2 ^ 51) :=
    ofDecimal_normal _ _ (0) 4953959590107546
      (by norm_num) (by norm_num) (by norm_num) (by norm_num) (by norm_num) (by norm_num)
      (by norm_num)
  have hentry : (typed 1000 5 2 2 (1 / 10000) (11 / 10)).entryPrice =
      fin (2476979795053773 / 2 ^ 51) :=
    stored_entryPrice _ _ _ _ _ _ _ hE (by norm_num)
  have hrr : (typed 1000 5 2 2 (1 / 10000) (11 / 10)).riskReward =
      fin 2 :=
    stored_riskReward _ _ _ _ _ _ _ hR (by norm_num)
  have hpip := hsZ
  have htpv : mul (fin 40)
      (fin 2) =
      fin 80 :=
    mul_normal _ _ _ (6) 5629499534213120
      (by norm_num) (by norm_num) (by norm_num) (by norm_num) (by norm_num) (by norm_num)
      (by norm_num)
  have htp : tpPips (typed 1000 5 2 2 (1 / 10000) (11 / 10)) =
      fin 80 := by
    unfold tpPips
    rw [hsl, hrr, htpv]
  have hm1 : mul (fin 40)
      (fin (7378697629483821 / 2 ^ 66)) =
      fin (1152921504606847 / 2 ^ 58) :=
    mul_normal _ _ _ (-8) 4611686018427388
      (by norm_num) (by norm_num) (by norm_num) (by norm_num) (by norm_num) (by norm_num)
      (by norm_num)
  have hs1 : sub (fin (2476979795053773 / 2 ^ 51)) (fin (1152921504606847 / 2 ^ 58)) =
      fin (308496574474879 / 2 ^ 48) :=
    sub_normal _ _ _ (0) 4935945191598064
      (by norm_num) (by norm_num) (by norm_num) (by norm_num) (by norm_num) (by norm_num)
      (by norm_num)
  have hf1 : toFixed5 (fin (308496574474879 / 2 ^ 48)) =
      fin (308496574474879 / 2 ^ 48) :=
    toFixed5_normal _ _ (109600) (0) 4935945191598064
      (by norm_num) (by norm_num) (by norm_num) (by norm_num) (by norm_num) (by norm_num)
      (by norm_num) (by norm_num) (by norm_num) (by norm_num) (by norm_num)
  have hm2 : mul (fin 80)
      (fin (7378697629483821 / 2 ^ 66)) =
      fin (1152921504606847 / 2 ^ 57) :=
    mul_normal _ _ _ (-7) 4611686018427388
      (by norm_num) (by norm_num) (by norm_num) (by norm_num) (by norm_num) (by norm_num)
      (by norm_num)
  have ha2 : add (fin (2476979795053773 / 2 ^ 51)) (fin (1152921504606847 / 2 ^ 57)) =
      fin (2494994193563255 / 2 ^ 51) :=
    add_normal _ _ _ (0) 4989988387126510
      (by norm_num) (by norm_num) (by norm_num) (by norm_num) (by norm_num) (by norm_num)
      (by norm_num)
  have hf2 : toFixed5 (fin (2494994193563255 / 2 ^ 51)) =
      fin (2494994193563255 / 2 ^ 51) :=
    toFixed5_normal _ _ (110800) (0) 4989988387126510
      (by norm_num) (by norm_num) (by norm_num) (by norm_num) (by norm_num) (by norm_num)
      (by norm_num) (by norm_num) (by norm_num) (by norm_num) (by norm_num)
  have ho1 : ofDecimal (1096 / 1000) =
      fin (308496574474879 / 2 ^ 48) :=
    ofDecimal_normal _ _ (0) 4935945191598064
      (by norm_num) (by norm_num) (by norm_num) (by norm_num) (by norm_num) (by norm_num)
      (by norm_num)
  have ho2 : ofDecimal (1108 / 1000) =
      fin (2494994193563255 / 2 ^ 51) :=
    ofDecimal_normal _ _ (0) 4989988387126510
      (by norm_num) (by norm_num) (by norm_num) (by norm_num) (by norm_num) (by norm_num)
      (by norm_num)
  have hmain := (prices_binary64 (typed 1000 5 2 2 (1 / 10000) (11 / 10))
    (2476979795053773 / 2 ^ 51) hentry).2.1 40 2
    (by norm_num) hsl (by norm_num) hrr
  constructor
  · rw [hmain.1, hpip, hm1, hs1, hf1, ho1]
  · rw [hmain.2.1 (by rw [abs_of_pos (by norm_num)]; norm_num), htp, hpip, hm2, ha2, hf2, ho2]

end Binary64

end TradeRisk
